import Mathlib

/-!
# Verification of the Roboroca heuristic pixel-analysis engine

Shallow embedding of the vegetation-analysis core of the repository
(`backend/services/ml/pest_detector.py`, `tree_counter.py`,
`biomass_estimator.py`, `backend/services/image_processing/analyzer.py`)
and proofs about it.

Conventions of the embedding:
* 8-bit channel samples are `ℕ` (0–255); float arithmetic is modelled by
  exact `ℚ` arithmetic.
* `numpy` images / masks are `List (List _)` in row-major order.
* Python `round(x, n)` is modelled by rounding to the nearest multiple of
  `10⁻ⁿ` (Mathlib's `round`, half-up; ties never matter for the results
  proved here).
* Colour-space conversions done by OpenCV (`RGB2HSV`, `RGB2GRAY`) are
  modelled as per-pixel inputs carried alongside the RGB samples, except
  where a claim is about the conversion itself, in which case the
  documented OpenCV 8-bit formula is embedded (`hueDegOfRgb` etc.).
-/

/-! ## Rounding helpers (Python `round(x, n)`) -/

/-- `round(x, 2)`: nearest multiple of 1/100. -/
def round2 (q : ℚ) : ℚ := (round (q * 100) : ℤ) / 100

/-- `round(x, 1)`: nearest multiple of 1/10. -/
def round1 (q : ℚ) : ℚ := (round (q * 10) : ℤ) / 10

/-- `round(x, 4)`: nearest multiple of 1/10000. -/
def round4 (q : ℚ) : ℚ := (round (q * 10000) : ℤ) / 10000

/-- `round(x, 0)` as used for the kg/ha estimate. -/
def round0 (q : ℚ) : ℚ := ((round q : ℤ) : ℚ)

theorem round2_mono {x y : ℚ} (h : x ≤ y) : round2 x ≤ round2 y := by
  unfold round2
  have : round (x * 100) ≤ round (y * 100) := by
    rw [round_eq, round_eq]
    exact Int.floor_mono (by linarith)
  have h100 : (0 : ℚ) ≤ 100 := by norm_num
  exact div_le_div_of_nonneg_right (by exact_mod_cast this) h100

theorem round2_zero : round2 0 = 0 := by
  unfold round2; norm_num

theorem round2_hundred : round2 100 = 100 := by
  unfold round2
  have : round ((100 : ℚ) * 100) = (10000 : ℤ) := by
    norm_num [round_eq]
  rw [this]; norm_num

theorem round2_le (q : ℚ) : round2 q ≤ q + 1 / 200 := by
  unfold round2
  have h := abs_sub_round (q * 100)
  rw [abs_le] at h
  have h1 : (round (q * 100) : ℚ) ≤ q * 100 + 1 / 2 := by linarith [h.2]
  linarith [div_le_div_of_nonneg_right h1 (show (0:ℚ) ≤ 100 by norm_num)]

theorem le_round2 (q : ℚ) : q - 1 / 200 ≤ round2 q := by
  unfold round2
  have h := abs_sub_round (q * 100)
  rw [abs_le] at h
  have h1 : q * 100 - 1 / 2 ≤ (round (q * 100) : ℚ) := by linarith [h.1]
  linarith [div_le_div_of_nonneg_right h1 (show (0:ℚ) ≤ 100 by norm_num)]

theorem round2_nonneg {q : ℚ} (h : 0 ≤ q) : 0 ≤ round2 q := by
  have := round2_mono h
  rwa [round2_zero] at this

/-- `round2` is the identity on integer multiples of 1/100. -/
theorem round2_intDiv100 (z : ℤ) : round2 ((z : ℚ) / 100) = (z : ℚ) / 100 := by
  unfold round2
  have : (z : ℚ) / 100 * 100 = (z : ℚ) := by field_simp
  rw [this, round_intCast]

/-! ## C8 — biomass index (`biomass_estimator._compute_biomass_index`) -/

/-- Embedding of `_compute_biomass_index` (biomass_estimator.py lines
120–152): clamp the four sub-scores to at most 100, weight them
40/30/15/15, clamp the result into [0,100], round to 2 decimals. -/
def computeBiomassIndex (vegetationCoveragePct canopyDensity vigorGreen
    textureVariance : ℚ) : ℚ :=
  let covScore := min vegetationCoveragePct 100
  let densityScore := min (canopyDensity * 100) 100
  let vigorScore := min (vigorGreen / 255 * 100) 100
  let textureScore := min (textureVariance / 2000 * 100) 100
  let biomassIndex := covScore * (40 / 100) + densityScore * (30 / 100)
    + vigorScore * (15 / 100) + textureScore * (15 / 100)
  round2 (min (max biomassIndex 0) 100)

/-- C8: `biomass_index` is monotone non-decreasing in the coverage
percentage with the other three sub-scores fixed, and always lies in
[0, 100]. -/
theorem biomassIndex_monotone_in_coverage (c1 c2 d v t : ℚ) (h : c1 ≤ c2) :
    computeBiomassIndex c1 d v t ≤ computeBiomassIndex c2 d v t ∧
    0 ≤ computeBiomassIndex c1 d v t ∧ computeBiomassIndex c1 d v t ≤ 100 := by
  unfold computeBiomassIndex
  refine ⟨?_, ?_, ?_⟩
  · apply round2_mono
    have hcov : min c1 100 ≤ min c2 100 := min_le_min_right 100 h
    have hsum : min c1 100 * (40 / 100) + min (d * 100) 100 * (30 / 100)
        + min (v / 255 * 100) 100 * (15 / 100)
        + min (t / 2000 * 100) 100 * (15 / 100)
        ≤ min c2 100 * (40 / 100) + min (d * 100) 100 * (30 / 100)
        + min (v / 255 * 100) 100 * (15 / 100)
        + min (t / 2000 * 100) 100 * (15 / 100) := by
      have := mul_le_mul_of_nonneg_right hcov (show (0:ℚ) ≤ 40 / 100 by norm_num)
      linarith
    exact min_le_min_right 100 (max_le_max_right 0 hsum)
  · exact round2_nonneg (le_min (le_max_right _ 0) (by norm_num))
  · have h1 : min (max (min c1 100 * (40 / 100) + min (d * 100) 100 * (30 / 100)
        + min (v / 255 * 100) 100 * (15 / 100)
        + min (t / 2000 * 100) 100 * (15 / 100)) 0) 100 ≤ 100 := min_le_right _ _
    calc round2 _ ≤ round2 100 := round2_mono h1
    _ = 100 := round2_hundred

/-- Witness for C8 at concrete inputs. -/
theorem biomassIndex_monotone_in_coverage_witness :
    computeBiomassIndex 50 (1/2) 100 500 ≤ computeBiomassIndex 60 (1/2) 100 500 ∧
    0 ≤ computeBiomassIndex 50 (1/2) 100 500 ∧
    computeBiomassIndex 50 (1/2) 100 500 ≤ 100 :=
  biomassIndex_monotone_in_coverage 50 60 (1/2) 100 500 (by norm_num)

/-! ## List min/max helpers (numpy `.min()` / `.max()`) -/

/-- `l.min()` with a default for the empty list. -/
def listMin {α : Type} [LinearOrder α] (z : α) : List α → α
  | [] => z
  | a :: t => t.foldl min a

/-- `l.max()` with a default for the empty list. -/
def listMax {α : Type} [LinearOrder α] (z : α) : List α → α
  | [] => z
  | a :: t => t.foldl max a

theorem foldl_min_le_init {α : Type} [LinearOrder α] :
    ∀ (l : List α) (a : α), l.foldl min a ≤ a := by
  intro l
  induction l with
  | nil => intro a; exact le_refl a
  | cons b t ih =>
    intro a
    calc (b :: t).foldl min a = t.foldl min (min a b) := rfl
    _ ≤ min a b := ih (min a b)
    _ ≤ a := min_le_left a b

theorem foldl_min_le_mem {α : Type} [LinearOrder α] :
    ∀ (l : List α) (a x : α), x ∈ l → l.foldl min a ≤ x := by
  intro l
  induction l with
  | nil => intro a x hx; cases hx
  | cons b t ih =>
    intro a x hx
    rcases List.mem_cons.mp hx with hx | hx
    · subst hx
      calc (x :: t).foldl min a = t.foldl min (min a x) := rfl
      _ ≤ min a x := foldl_min_le_init t (min a x)
      _ ≤ x := min_le_right a x
    · exact ih (min a b) x hx

theorem listMin_le_mem {α : Type} [LinearOrder α] {z x : α} {l : List α}
    (hx : x ∈ l) : listMin z l ≤ x := by
  cases l with
  | nil => cases hx
  | cons a t =>
    rcases List.mem_cons.mp hx with hx | hx
    · subst hx; exact foldl_min_le_init t x
    · exact foldl_min_le_mem t a x hx

theorem init_le_foldl_max {α : Type} [LinearOrder α] :
    ∀ (l : List α) (a : α), a ≤ l.foldl max a := by
  intro l
  induction l with
  | nil => intro a; exact le_refl a
  | cons b t ih =>
    intro a
    calc a ≤ max a b := le_max_left a b
    _ ≤ t.foldl max (max a b) := ih (max a b)
    _ = (b :: t).foldl max a := rfl

theorem mem_le_foldl_max {α : Type} [LinearOrder α] :
    ∀ (l : List α) (a x : α), x ∈ l → x ≤ l.foldl max a := by
  intro l
  induction l with
  | nil => intro a x hx; cases hx
  | cons b t ih =>
    intro a x hx
    rcases List.mem_cons.mp hx with hx | hx
    · subst hx
      calc x ≤ max a x := le_max_right a x
      _ ≤ t.foldl max (max a x) := init_le_foldl_max t (max a x)
    · exact ih (max a b) x hx

theorem mem_le_listMax {α : Type} [LinearOrder α] {z x : α} {l : List α}
    (hx : x ∈ l) : x ≤ listMax z l := by
  cases l with
  | nil => cases hx
  | cons a t =>
    rcases List.mem_cons.mp hx with hx | hx
    · subst hx; exact init_le_foldl_max t x
    · exact mem_le_foldl_max t a x hx

theorem foldl_min_mem {α : Type} [LinearOrder α] :
    ∀ (l : List α) (a : α), l.foldl min a = a ∨ l.foldl min a ∈ l := by
  intro l
  induction l with
  | nil => intro a; exact Or.inl rfl
  | cons b t ih =>
    intro a
    rcases ih (min a b) with h | h
    · rcases min_cases a b with ⟨he, _⟩ | ⟨he, _⟩
      · exact Or.inl (by rw [show (b :: t).foldl min a = t.foldl min (min a b) from rfl, h, he])
      · exact Or.inr (by rw [show (b :: t).foldl min a = t.foldl min (min a b) from rfl, h, he]; exact List.mem_cons_self b t)
    · exact Or.inr (List.mem_cons_of_mem b h)

theorem listMin_mem {α : Type} [LinearOrder α] {z : α} {l : List α}
    (h : l ≠ []) : listMin z l ∈ l := by
  cases l with
  | nil => exact absurd rfl h
  | cons a t =>
    rcases foldl_min_mem t a with he | he
    · rw [show listMin z (a :: t) = t.foldl min a from rfl, he]
      exact List.mem_cons_self a t
    · exact List.mem_cons_of_mem a he

theorem foldl_max_mem {α : Type} [LinearOrder α] :
    ∀ (l : List α) (a : α), l.foldl max a = a ∨ l.foldl max a ∈ l := by
  intro l
  induction l with
  | nil => intro a; exact Or.inl rfl
  | cons b t ih =>
    intro a
    rcases ih (max a b) with h | h
    · rcases max_cases a b with ⟨he, _⟩ | ⟨he, _⟩
      · exact Or.inl (by rw [show (b :: t).foldl max a = t.foldl max (max a b) from rfl, h, he])
      · exact Or.inr (by rw [show (b :: t).foldl max a = t.foldl max (max a b) from rfl, h, he]; exact List.mem_cons_self b t)
    · exact Or.inr (List.mem_cons_of_mem b h)

theorem listMax_mem {α : Type} [LinearOrder α] {z : α} {l : List α}
    (h : l ≠ []) : listMax z l ∈ l := by
  cases l with
  | nil => exact absurd rfl h
  | cons a t =>
    rcases foldl_max_mem t a with he | he
    · rw [show listMax z (a :: t) = t.foldl max a from rfl, he]
      exact List.mem_cons_self a t
    · exact List.mem_cons_of_mem a he

theorem flatten_map_map {α β : Type} (f : α → β) (L : List (List α)) :
    (L.map (fun r => r.map f)).flatten = L.flatten.map f := by
  induction L with
  | nil => rfl
  | cons r t ih =>
    rw [List.map_cons, List.flatten_cons, List.flatten_cons, List.map_append, ih]

/-! ## C6 — vegetation index fields (`analyzer.py`) -/

/-- One RGB sample of a `PixelBuffer` (8-bit channels). -/
structure Rgb where
  r : ℕ
  g : ℕ
  b : ℕ
deriving DecidableEq, Repr

/-- Raw per-pixel ExG value of `calculate_excess_green_index`
(analyzer.py lines 27–44): channels scaled to [0,1], per-pixel sum with
the `total[total == 0] = 1` guard, then `2·g/t − r/t − b/t`. -/
def exgRaw (p : Rgb) : ℚ :=
  let r : ℚ := (p.r : ℚ) / 255
  let g : ℚ := (p.g : ℚ) / 255
  let b : ℚ := (p.b : ℚ) / 255
  let total := r + g + b
  let t := if total = 0 then 1 else total
  2 * (g / t) - r / t - b / t

/-- The raw (pre-normalization) ExG field. -/
def exgRawField (img : List (List Rgb)) : List (List ℚ) :=
  img.map (fun row => row.map exgRaw)

/-- Min–max normalization denominator `exg.max() - exg.min() + 1e-6`. -/
def exgDenom (img : List (List Rgb)) : ℚ :=
  listMax 0 (exgRawField img).flatten - listMin 0 (exgRawField img).flatten
    + 1 / 1000000

/-- Embedding of `calculate_excess_green_index` (analyzer.py lines
12–49): the raw field min–max normalized via
`(exg - exg.min()) / (exg.max() - exg.min() + 1e-6)`. -/
def exgField (img : List (List Rgb)) : List (List ℚ) :=
  let lo := listMin 0 (exgRawField img).flatten
  let den := exgDenom img
  (exgRawField img).map (fun row => row.map (fun q => (q - lo) / den))

/-- Per-pixel GLI of `calculate_green_leaf_index` (analyzer.py lines
52–79): `(2g − r − b) / (2g + r + b)` on raw channel values with the
`denominator[denominator == 0] = 1` guard. -/
def gliPix (p : Rgb) : ℚ :=
  let numerator : ℚ := 2 * (p.g : ℚ) - (p.r : ℚ) - (p.b : ℚ)
  let denominator0 : ℚ := 2 * (p.g : ℚ) + (p.r : ℚ) + (p.b : ℚ)
  let denominator := if denominator0 = 0 then 1 else denominator0
  numerator / denominator

/-- Embedding of `calculate_green_leaf_index`. -/
def gliField (img : List (List Rgb)) : List (List ℚ) :=
  img.map (fun row => row.map gliPix)

theorem exgField_flatten (img : List (List Rgb)) :
    (exgField img).flatten = (exgRawField img).flatten.map
      (fun q => (q - listMin 0 (exgRawField img).flatten) / exgDenom img) := by
  unfold exgField
  exact flatten_map_map _ _

theorem exgDenom_pos (img : List (List Rgb)) : 0 < exgDenom img := by
  unfold exgDenom
  rcases List.eq_nil_or_concat (exgRawField img).flatten with h | ⟨t, x, h⟩
  · rw [h]; norm_num [listMin, listMax]
  · have hx : x ∈ (exgRawField img).flatten := by rw [h]; simp
    have h1 : listMin 0 (exgRawField img).flatten ≤ x := listMin_le_mem hx
    have h2 : x ≤ listMax 0 (exgRawField img).flatten := mem_le_listMax hx
    linarith

/-- C6: the ExG field has the buffer's dimensions; every normalized ExG
value lies in [0,1]; every GLI value lies in [-1,1]; on a uniform-color
buffer the normalized ExG field is identically 0 (constant), and the
normalization denominator is positive (no NaN / division by zero). -/
theorem index_fields_dims_and_ranges (img : List (List Rgb)) :
    ((exgField img).length = img.length ∧
      ∀ i, ((exgField img).getD i []).length = (img.getD i []).length) ∧
    (∀ q ∈ (exgField img).flatten, 0 ≤ q ∧ q ≤ 1) ∧
    (∀ q ∈ (gliField img).flatten, -1 ≤ q ∧ q ≤ 1) ∧
    (0 < exgDenom img) ∧
    (∀ c : Rgb, (∀ p ∈ img.flatten, p = c) →
      ∀ q ∈ (exgField img).flatten, q = 0) := by
  refine ⟨⟨?_, ?_⟩, ?_, ?_, exgDenom_pos img, ?_⟩
  · unfold exgField exgRawField
    simp
  · intro i
    unfold exgField exgRawField
    rcases Nat.lt_or_ge i img.length with hi | hi
    · rw [List.getD_eq_getElem?_getD, List.getD_eq_getElem?_getD,
        List.getElem?_map, List.getElem?_map]
      have : img[i]? = some img[i] := List.getElem?_eq_getElem hi
      rw [this]
      simp
    · rw [List.getD_eq_getElem?_getD, List.getD_eq_getElem?_getD]
      have h1 : img[i]? = none := List.getElem?_eq_none hi
      have h2 : ((img.map (fun row => row.map exgRaw)).map
          (fun row => row.map (fun q =>
            (q - listMin 0 (img.map (fun row => row.map exgRaw)).flatten) /
              exgDenom img)))[i]? = none := by
        apply List.getElem?_eq_none
        simpa using hi
      rw [h1, h2]
      rfl
  · intro q hq
    rw [exgField_flatten img] at hq
    rcases List.mem_map.mp hq with ⟨x, hx, rfl⟩
    have h1 : listMin 0 (exgRawField img).flatten ≤ x := listMin_le_mem hx
    have h2 : x ≤ listMax 0 (exgRawField img).flatten := mem_le_listMax hx
    have hd : 0 < exgDenom img := exgDenom_pos img
    constructor
    · exact div_nonneg (by linarith) (le_of_lt hd)
    · rw [div_le_one hd]
      unfold exgDenom
      linarith
  · intro q hq
    unfold gliField at hq
    rw [flatten_map_map] at hq
    rcases List.mem_map.mp hq with ⟨p, _, rfl⟩
    unfold gliPix
    have hr : (0 : ℚ) ≤ (p.r : ℚ) := Nat.cast_nonneg p.r
    have hg : (0 : ℚ) ≤ (p.g : ℚ) := Nat.cast_nonneg p.g
    have hb : (0 : ℚ) ≤ (p.b : ℚ) := Nat.cast_nonneg p.b
    by_cases h0 : 2 * (p.g : ℚ) + (p.r : ℚ) + (p.b : ℚ) = 0
    · have hgz : (p.g : ℚ) = 0 := by linarith
      have hrz : (p.r : ℚ) = 0 := by linarith
      have hbz : (p.b : ℚ) = 0 := by linarith
      simp only [h0, if_pos rfl, hgz, hrz, hbz]
      norm_num
    · have hpos : 0 < 2 * (p.g : ℚ) + (p.r : ℚ) + (p.b : ℚ) :=
        lt_of_le_of_ne (by linarith) (Ne.symm h0)
      simp only [if_neg h0]
      constructor
      · rw [le_div_iff₀ hpos]; linarith
      · rw [div_le_one hpos]; linarith
  · intro c hc q hq
    rw [exgField_flatten img] at hq
    rcases List.mem_map.mp hq with ⟨x, hx, rfl⟩
    have hval : ∀ y ∈ (exgRawField img).flatten, y = exgRaw c := by
      intro y hy
      unfold exgRawField at hy
      rw [flatten_map_map] at hy
      rcases List.mem_map.mp hy with ⟨p, hp, rfl⟩
      rw [hc p hp]
    have hne : (exgRawField img).flatten ≠ [] := by
      intro h
      rw [h] at hx
      cases hx
    have hlo : listMin 0 (exgRawField img).flatten = exgRaw c :=
      hval _ (listMin_mem hne)
    rw [hval x hx, hlo, sub_self, zero_div]

/-- Witness for C6 at a concrete uniform 1×2 buffer. -/
theorem index_fields_dims_and_ranges_witness :
    (0 ≤ ((exgField [[⟨0, 0, 0⟩, ⟨0, 0, 0⟩]]).flatten.getD 0 5) ∧
      ((exgField [[⟨0, 0, 0⟩, ⟨0, 0, 0⟩]]).flatten.getD 0 5) ≤ 1) ∧
    (-1 ≤ ((gliField [[⟨0, 0, 0⟩, ⟨0, 0, 0⟩]]).flatten.getD 0 5) ∧
      ((gliField [[⟨0, 0, 0⟩, ⟨0, 0, 0⟩]]).flatten.getD 0 5) ≤ 1) ∧
    ((exgField [[⟨0, 0, 0⟩, ⟨0, 0, 0⟩]]).flatten.getD 1 5) = 0 := by
  have hexg : (exgField [[⟨0, 0, 0⟩, ⟨0, 0, 0⟩]]).flatten = [0, 0] := by
    norm_num [exgField, exgRawField, exgRaw, exgDenom, listMin, listMax]
  have hgli : (gliField [[⟨0, 0, 0⟩, ⟨0, 0, 0⟩]]).flatten = [0, 0] := by
    norm_num [gliField, gliPix]
  have h := index_fields_dims_and_ranges [[⟨0, 0, 0⟩, ⟨0, 0, 0⟩]]
  have hm0 : ((exgField [[⟨0, 0, 0⟩, ⟨0, 0, 0⟩]]).flatten.getD 0 5)
      ∈ (exgField [[⟨0, 0, 0⟩, ⟨0, 0, 0⟩]]).flatten := by
    rw [hexg]; norm_num
  have hm1 : ((exgField [[⟨0, 0, 0⟩, ⟨0, 0, 0⟩]]).flatten.getD 1 5)
      ∈ (exgField [[⟨0, 0, 0⟩, ⟨0, 0, 0⟩]]).flatten := by
    rw [hexg]; norm_num
  have hg0 : ((gliField [[⟨0, 0, 0⟩, ⟨0, 0, 0⟩]]).flatten.getD 0 5)
      ∈ (gliField [[⟨0, 0, 0⟩, ⟨0, 0, 0⟩]]).flatten := by
    rw [hgli]; norm_num
  exact ⟨h.2.1 _ hm0, h.2.2.1 _ hg0,
    h.2.2.2.2 ⟨0, 0, 0⟩ (by decide) _ hm1⟩

/-! ## C9 — heatmap renderer (`analyzer.generate_vegetation_heatmap`) -/

/-- 8-bit wraparound of numpy `uint8` arithmetic. -/
def u8 (z : ℤ) : ℕ := (z % 256).toNat

/-- `(exg * 255).astype(np.uint8)` for a normalized field value. -/
def quant255 (q : ℚ) : ℕ := (⌊q * 255⌋).toNat

/-- Red channel of the `green` palette: `139 - (u * 0.5).astype(uint8)`
(the float factor 0.5 is exact, so the cast is `u / 2`). -/
def greenChanR (u : ℕ) : ℕ := u8 (139 - (u / 2 : ℕ))

/-- Green channel of the `green` palette: the quantized index itself. -/
def greenChanG (u : ℕ) : ℕ := u

/-- Blue channel of the `green` palette: `69 - (u * 0.3).astype(uint8)`,
with 0.3 modelled as the exact rational 3/10. -/
def greenChanB (u : ℕ) : ℕ := u8 (69 - (3 * u / 10 : ℕ))

/-- One heatmap pixel of `generate_vegetation_heatmap` (analyzer.py lines
258–284) for the selected palette. -/
def renderPixel (cm : String) (q : ℚ) : ℕ × ℕ × ℕ :=
  let u := quant255 q
  if cm = "green" then (greenChanR u, greenChanG u, greenChanB u)
  else if cm = "jet" then (u8 (255 - (u : ℤ)), u, 0)
  else (3 * u / 10, u, (510 - u) / 2)

/-- Embedding of `generate_vegetation_heatmap` from the normalized
index field onward. -/
def renderHeatmap (cm : String) (field : List (List ℚ)) :
    List (List (ℕ × ℕ × ℕ)) :=
  field.map (fun row => row.map (renderPixel cm))

theorem grid_map_dims {α β : Type} (f : α → β) (L : List (List α)) :
    (L.map (fun row => row.map f)).length = L.length ∧
    ∀ i, ((L.map (fun row => row.map f)).getD i []).length =
      (L.getD i []).length := by
  constructor
  · simp
  · intro i
    rcases Nat.lt_or_ge i L.length with hi | hi
    · rw [List.getD_eq_getElem?_getD, List.getD_eq_getElem?_getD,
        List.getElem?_map]
      have : L[i]? = some L[i] := List.getElem?_eq_getElem hi
      rw [this]
      simp
    · rw [List.getD_eq_getElem?_getD, List.getD_eq_getElem?_getD]
      have h1 : L[i]? = none := List.getElem?_eq_none hi
      have h2 : (L.map (fun row => row.map f))[i]? = none := by
        apply List.getElem?_eq_none
        simpa using hi
      rw [h1, h2]
      rfl

/-- C9 counterexample: on the increasing field values 0, 233/255, 234/255
the blue channel of the `green` palette takes values 69, 0, 255 — it is
neither non-increasing nor non-decreasing in the index, because the 8-bit
expression `69 - (0.3·u).astype(uint8)` goes negative at quantized index
234 and wraps modulo 256. -/
theorem heatmap_green_blue_wraps :
    ((0 : ℚ) < 233 / 255 ∧ (233 / 255 : ℚ) < 234 / 255) ∧
    (renderHeatmap "green" [[0, 233 / 255, 234 / 255]]).flatten.map
      (fun c => c.2.2) = [69, 0, 255] ∧
    (139 < 256 - 3 * (234 : ℤ) / 10 + 69) := by
  have h0 : quant255 0 = 0 := by
    norm_num [quant255]
  have h1 : quant255 (233 / 255) = 233 := by
    have he : (233 / 255 : ℚ) * 255 = 233 := by norm_num
    rw [quant255, he]
    norm_num
    decide
  have h2 : quant255 (234 / 255) = 234 := by
    have he : (234 / 255 : ℚ) * 255 = 234 := by norm_num
    rw [quant255, he]
    norm_num
    decide
  refine ⟨⟨by norm_num, by norm_num⟩, ?_, by norm_num⟩
  simp only [renderHeatmap, List.map_cons, List.map_nil, List.flatten,
    List.append_nil, renderPixel, h0, h1, h2]
  norm_num [greenChanB, u8]
  decide

/-- C9 amended: the renderer preserves dimensions, and every channel of
every palette except the blue channel of `green` is a monotone
quantization of an affine function of the index, staying within 0–255
without 8-bit wraparound; the blue channel of `green` wraps modulo 256
(value ≥ 128 instead of ≤ 69) whenever the quantized index is ≥ 234. -/
theorem heatmap_channels_amended (cm : String) (field : List (List ℚ))
    (u1 u2 u : ℕ) (h12 : u1 ≤ u2) (h2 : u2 ≤ 255) (hu : u ≤ 255) :
    ((renderHeatmap cm field).length = field.length ∧
      ∀ i, ((renderHeatmap cm field).getD i []).length =
        (field.getD i []).length) ∧
    (greenChanR u2 ≤ greenChanR u1 ∧ greenChanG u1 ≤ greenChanG u2 ∧
      u8 (255 - (u2 : ℤ)) ≤ u8 (255 - (u1 : ℤ)) ∧
      3 * u1 / 10 ≤ 3 * u2 / 10 ∧ (510 - u2) / 2 ≤ (510 - u1) / 2) ∧
    (greenChanR u = 139 - u / 2 ∧ u8 (255 - (u : ℤ)) = 255 - u ∧
      3 * u / 10 < 256 ∧ (510 - u) / 2 < 256) ∧
    (234 ≤ u → 128 ≤ greenChanB u) := by
  refine ⟨grid_map_dims _ _, ⟨?_, ?_, ?_, ?_, ?_⟩, ⟨?_, ?_, ?_, ?_⟩, ?_⟩
  · unfold greenChanR u8; omega
  · exact h12
  · unfold u8; omega
  · omega
  · omega
  · unfold greenChanR u8; omega
  · unfold u8; omega
  · omega
  · omega
  · intro h234
    have hk : 70 ≤ 3 * u / 10 ∧ 3 * u / 10 ≤ 76 := by omega
    unfold greenChanB u8
    omega

/-- Witness for C9 amended at concrete inputs. -/
theorem heatmap_channels_amended_witness :
    ((renderHeatmap "green" [[0]]).length = 1) ∧
    greenChanR 240 ≤ greenChanR 10 ∧ 128 ≤ greenChanB 240 :=
  let h := heatmap_channels_amended "green" [[0]] 10 240 240
    (by norm_num) (by norm_num) (by norm_num)
  ⟨h.1.1, h.2.1.1, h.2.2.2 (by norm_num)⟩

/-! ## Binary grids and OpenCV morphology (C5) -/

/-- Read a grid cell at signed coordinates; out-of-bounds reads give
`oob`.  OpenCV's default constant border behaves as "on" for erosion and
"off" for dilation. -/
def cellZ (g : List (List Bool)) (oob : Bool) (y x : ℤ) : Bool :=
  if y < 0 ∨ x < 0 then oob
  else (g.getD y.toNat []).getD x.toNat oob

/-- In-bounds cell read with `false` default. -/
def cellN (g : List (List Bool)) (y x : ℕ) : Bool :=
  (g.getD y []).getD x false

/-- The 5×5 elliptical structuring element
`cv2.getStructuringElement(cv2.MORPH_ELLIPSE, (5, 5))`, as offsets from
the center anchor:
`0 0 1 0 0 / 1 1 1 1 1 / 1 1 1 1 1 / 1 1 1 1 1 / 0 0 1 0 0`. -/
def ellipse5 : List (ℤ × ℤ) :=
  [(-2, 0),
   (-1, -2), (-1, -1), (-1, 0), (-1, 1), (-1, 2),
   (0, -2), (0, -1), (0, 0), (0, 1), (0, 2),
   (1, -2), (1, -1), (1, 0), (1, 1), (1, 2),
   (2, 0)]

def erodePoint (g : List (List Bool)) (y x : ℤ) : Bool :=
  ellipse5.all (fun d => cellZ g true (y + d.1) (x + d.2))

def dilatePoint (g : List (List Bool)) (y x : ℤ) : Bool :=
  ellipse5.any (fun d => cellZ g false (y + d.1) (x + d.2))

/-- Width of a rectangular grid (length of its first row). -/
def gridWidth (g : List (List Bool)) : ℕ := (g.getD 0 []).length

/-- Materialize an `h × w` grid from a cell function. -/
def gridOfFn (h w : ℕ) (f : ℕ → ℕ → Bool) : List (List Bool) :=
  (List.range h).map (fun y => (List.range w).map (fun x => f y x))

/-- `cv2.erode(g, ellipse5)` (one iteration). -/
def erode (g : List (List Bool)) : List (List Bool) :=
  gridOfFn g.length (gridWidth g) (fun y x => erodePoint g y x)

/-- `cv2.dilate(g, ellipse5)` (one iteration). -/
def dilate (g : List (List Bool)) : List (List Bool) :=
  gridOfFn g.length (gridWidth g) (fun y x => dilatePoint g y x)

/-- Canopy-separation morphology of `count_trees_by_segmentation`
(tree_counter.py lines 78–84): erosion ×2 then dilation ×1. -/
def canopyMorph (g : List (List Bool)) : List (List Bool) :=
  dilate (erode (erode g))

/-- `cv2.morphologyEx(mask, cv2.MORPH_OPEN, ellipse5, iterations=2)`:
erosion twice then dilation twice. -/
def open2 (g : List (List Bool)) : List (List Bool) :=
  dilate (dilate (erode (erode g)))

/-- `cv2.morphologyEx(·, cv2.MORPH_CLOSE, ellipse5, iterations=1)`:
dilation once then erosion once. -/
def close1 (g : List (List Bool)) : List (List Bool) :=
  erode (dilate g)

/-- Morphology applied by `_segment_canopies` (biomass_estimator.py lines
46–49): opening with 2 iterations followed by closing with 1 iteration. -/
def biomassMorph (g : List (List Bool)) : List (List Bool) :=
  close1 (open2 g)

theorem getD_range_map {β : Type} (n : ℕ) (f : ℕ → β) (i : ℕ) (d : β) :
    ((List.range n).map f).getD i d = if i < n then f i else d := by
  rcases Nat.lt_or_ge i n with hi | hi
  · rw [List.getD_eq_getElem?_getD, List.getElem?_map, List.getElem?_range hi]
    simp [hi]
  · rw [List.getD_eq_getElem?_getD]
    have : ((List.range n).map f)[i]? = none := by
      apply List.getElem?_eq_none
      simpa using hi
    rw [this]
    simp [Nat.not_lt.mpr hi]

theorem cellZ_gridOfFn (h w : ℕ) (f : ℕ → ℕ → Bool) (oob : Bool) (y x : ℤ) :
    cellZ (gridOfFn h w f) oob y x =
      if 0 ≤ y ∧ y < (h : ℤ) ∧ 0 ≤ x ∧ x < (w : ℤ) then f y.toNat x.toNat
      else oob := by
  unfold cellZ gridOfFn
  by_cases hneg : y < 0 ∨ x < 0
  · rw [if_pos hneg]
    have : ¬(0 ≤ y ∧ y < (h : ℤ) ∧ 0 ≤ x ∧ x < (w : ℤ)) := by omega
    rw [if_neg this]
  · rw [if_neg hneg]
    push_neg at hneg
    rw [getD_range_map]
    by_cases hy : y.toNat < h
    · rw [if_pos hy, getD_range_map]
      by_cases hx : x.toNat < w
      · rw [if_pos hx]
        have : 0 ≤ y ∧ y < (h : ℤ) ∧ 0 ≤ x ∧ x < (w : ℤ) := by omega
        rw [if_pos this]
      · rw [if_neg hx]
        have : ¬(0 ≤ y ∧ y < (h : ℤ) ∧ 0 ≤ x ∧ x < (w : ℤ)) := by omega
        rw [if_neg this]
    · rw [if_neg hy]
      have : ¬(0 ≤ y ∧ y < (h : ℤ) ∧ 0 ≤ x ∧ x < (w : ℤ)) := by omega
      rw [if_neg this]
      simp

theorem cellN_eq_cellZ (g : List (List Bool)) (y x : ℕ) :
    cellN g y x = cellZ g false (y : ℤ) (x : ℤ) := by
  unfold cellN cellZ
  have : ¬((y : ℤ) < 0 ∨ (x : ℤ) < 0) := by omega
  rw [if_neg this, Int.toNat_natCast, Int.toNat_natCast]

theorem length_gridOfFn (h w : ℕ) (f : ℕ → ℕ → Bool) :
    (gridOfFn h w f).length = h := by
  simp [gridOfFn]

theorem gridWidth_gridOfFn (h w : ℕ) (f : ℕ → ℕ → Bool) (hh : 0 < h) :
    gridWidth (gridOfFn h w f) = w := by
  unfold gridWidth gridOfFn
  rw [getD_range_map, if_pos hh]
  simp

theorem ellipse5_center : ((0 : ℤ), (0 : ℤ)) ∈ ellipse5 := by decide

theorem ellipse5_symm : ∀ d ∈ ellipse5, (-d.1, -d.2) ∈ ellipse5 := by decide

theorem dilate_length (g : List (List Bool)) : (dilate g).length = g.length :=
  length_gridOfFn _ _ _

theorem dilate_width (g : List (List Bool)) (hg : 0 < g.length) :
    gridWidth (dilate g) = gridWidth g :=
  gridWidth_gridOfFn _ _ _ hg

theorem cellZ_dilate (g : List (List Bool)) (y x : ℤ) :
    cellZ (dilate g) false y x =
      if 0 ≤ y ∧ y < (g.length : ℤ) ∧ 0 ≤ x ∧ x < (gridWidth g : ℤ) then
        dilatePoint g y x
      else false := by
  unfold dilate
  rw [cellZ_gridOfFn]
  by_cases hb : 0 ≤ y ∧ y < (g.length : ℤ) ∧ 0 ≤ x ∧ x < (gridWidth g : ℤ)
  · rw [if_pos hb, if_pos hb, Int.toNat_of_nonneg hb.1,
      Int.toNat_of_nonneg hb.2.2.1]
  · rw [if_neg hb, if_neg hb]

theorem cellZ_erode (g : List (List Bool)) (y x : ℤ) :
    cellZ (erode g) false y x =
      if 0 ≤ y ∧ y < (g.length : ℤ) ∧ 0 ≤ x ∧ x < (gridWidth g : ℤ) then
        erodePoint g y x
      else false := by
  unfold erode
  rw [cellZ_gridOfFn]
  by_cases hb : 0 ≤ y ∧ y < (g.length : ℤ) ∧ 0 ≤ x ∧ x < (gridWidth g : ℤ)
  · rw [if_pos hb, if_pos hb, Int.toNat_of_nonneg hb.1,
      Int.toNat_of_nonneg hb.2.2.1]
  · rw [if_neg hb, if_neg hb]

theorem dilatePoint_of_cellZ {g : List (List Bool)} {y x : ℤ}
    (h : cellZ g false y x = true) : dilatePoint g y x = true := by
  unfold dilatePoint
  rw [List.any_eq_true]
  refine ⟨((0 : ℤ), (0 : ℤ)), ellipse5_center, ?_⟩
  simpa using h

theorem cellZ_true_bounds {g : List (List Bool)} {y x : ℤ}
    (h : cellZ g false y x = true) :
    0 ≤ y ∧ 0 ≤ x := by
  unfold cellZ at h
  by_cases hneg : y < 0 ∨ x < 0
  · rw [if_pos hneg] at h
    cases h
  · omega

/-- C5 amended, general half: every pixel produced by the
CanopyCounter's morphology (erode ×2, dilate ×1) is also produced by the
BiomassEstimator's morphology (open ×2 then close ×1) on the same mask. -/
theorem canopyMorph_subset_biomassMorph (g : List (List Bool)) (y x : ℕ)
    (h : cellN (canopyMorph g) y x = true) :
    cellN (biomassMorph g) y x = true := by
  rw [cellN_eq_cellZ] at h
  rw [cellN_eq_cellZ]
  show cellZ (erode (dilate (dilate (dilate (erode (erode g)))))) false _ _ = true
  set z := erode (erode g) with hzdef
  rw [show canopyMorph g = dilate z from rfl] at h
  rw [cellZ_dilate] at h
  by_cases hb : 0 ≤ (y : ℤ) ∧ (y : ℤ) < (z.length : ℤ) ∧ 0 ≤ (x : ℤ) ∧
      (x : ℤ) < (gridWidth z : ℤ)
  swap
  · rw [if_neg hb] at h
    cases h
  rw [if_pos hb] at h
  have hzpos : 0 < z.length := by omega
  -- dimensions of the dilation tower
  have hl1 : (dilate z).length = z.length := dilate_length z
  have hw1 : gridWidth (dilate z) = gridWidth z := dilate_width z hzpos
  have hl2 : (dilate (dilate z)).length = z.length := by
    rw [dilate_length, hl1]
  have hw2 : gridWidth (dilate (dilate z)) = gridWidth z := by
    rw [dilate_width _ (by omega : 0 < (dilate z).length), hw1]
  have hl3 : (dilate (dilate (dilate z))).length = z.length := by
    rw [dilate_length, hl2]
  have hw3 : gridWidth (dilate (dilate (dilate z))) = gridWidth z := by
    rw [dilate_width _ (by omega : 0 < (dilate (dilate z)).length), hw2]
  -- cell of D2 at (y, x)
  have hD1 : cellZ (dilate z) false (y : ℤ) (x : ℤ) = true := by
    rw [cellZ_dilate, if_pos hb, h]
  have hD2 : cellZ (dilate (dilate z)) false (y : ℤ) (x : ℤ) = true := by
    rw [cellZ_dilate, hl1, hw1, if_pos hb]
    exact dilatePoint_of_cellZ hD1
  -- the erosion goal
  rw [cellZ_erode, hl3, hw3, if_pos hb]
  unfold erodePoint
  rw [List.all_eq_true]
  intro d hd
  rw [show dilate (dilate (dilate z)) =
    gridOfFn (dilate (dilate z)).length (gridWidth (dilate (dilate z)))
      (fun a b => dilatePoint (dilate (dilate z)) a b) from rfl,
    cellZ_gridOfFn, hl2, hw2]
  by_cases hbd : 0 ≤ (y : ℤ) + d.1 ∧ (y : ℤ) + d.1 < (z.length : ℤ) ∧
      0 ≤ (x : ℤ) + d.2 ∧ (x : ℤ) + d.2 < (gridWidth z : ℤ)
  swap
  · rw [if_neg hbd]
  rw [if_pos hbd]
  show dilatePoint (dilate (dilate z)) _ _ = true
  unfold dilatePoint
  rw [List.any_eq_true]
  refine ⟨(-d.1, -d.2), ellipse5_symm d hd, ?_⟩
  have hy' : ((((y : ℤ) + d.1).toNat : ℤ) + -d.1) = (y : ℤ) := by omega
  have hx' : ((((x : ℤ) + d.2).toNat : ℤ) + -d.2) = (x : ℤ) := by omega
  rw [hy', hx']
  exact hD2

/-- The 13×13 test mask: a 9×9 on-square with a 2-pixel off border. -/
def m13 : List (List Bool) :=
  gridOfFn 13 13 (fun y x =>
    decide (2 ≤ y) && decide (y ≤ 10) && decide (2 ≤ x) && decide (x ≤ 10))

/-- C5 counterexample: on `m13` the BiomassEstimator's morphology
(open ×2, close ×1) does not equal the CanopyCounter's morphology
(erode ×2, dilate ×1); the former keeps strictly more pixels, e.g.
pixel (4, 4). -/
theorem biomassMorph_ne_canopyMorph :
    biomassMorph m13 ≠ canopyMorph m13 ∧
    cellN (biomassMorph m13) 4 4 = true ∧
    cellN (canopyMorph m13) 4 4 = false := by
  refine ⟨?_, by decide, by decide⟩
  decide

/-- Witness for the C5 amended subset theorem at pixel (6, 6) of `m13`. -/
theorem canopyMorph_subset_biomassMorph_witness :
    cellN (biomassMorph m13) 6 6 = true :=
  canopyMorph_subset_biomassMorph m13 6 6 (by decide)

/-! ## Connected-component labeling and region extraction (C3) -/

/-- 4-connectivity offsets (the default structuring element of
`scipy.ndimage.label`). -/
def n4 : List (ℤ × ℤ) := [(-1, 0), (1, 0), (0, -1), (0, 1)]

/-- 8-connectivity offsets (`cv2.connectedComponentsWithStats` with
`connectivity=8`). -/
def n8 : List (ℤ × ℤ) :=
  [(-1, -1), (-1, 0), (-1, 1), (0, -1), (0, 1), (1, -1), (1, 0), (1, 1)]

/-- On-neighbours of a pixel under the given connectivity. -/
def nbrs (offs : List (ℤ × ℤ)) (g : List (List Bool)) (p : ℕ × ℕ) :
    List (ℕ × ℕ) :=
  offs.filterMap (fun d =>
    let y := (p.1 : ℤ) + d.1
    let x := (p.2 : ℤ) + d.2
    if cellZ g false y x then some (y.toNat, x.toNat) else none)

/-- Fueled breadth-first flood fill collecting one connected component. -/
def bfs (offs : List (ℤ × ℤ)) (g : List (List Bool)) :
    ℕ → List (ℕ × ℕ) → List (ℕ × ℕ) → List (ℕ × ℕ)
  | 0, visited, _ => visited
  | _ + 1, visited, [] => visited
  | fuel + 1, visited, q :: rest =>
    if q ∈ visited then bfs offs g fuel visited rest
    else bfs offs g fuel (visited ++ [q]) (rest ++ nbrs offs g q)

/-- Enough fuel for any flood fill on `g`. -/
def fuelFor (g : List (List Bool)) : ℕ := 9 * (g.length * gridWidth g + 2)

/-- The connected component of a seed pixel. -/
def component (offs : List (ℤ × ℤ)) (g : List (List Bool)) (p : ℕ × ℕ) :
    List (ℕ × ℕ) :=
  bfs offs g (fuelFor g) [] [p]

/-- Coordinates of on-pixels in raster (row-major) order. -/
def onCoords (g : List (List Bool)) : List (ℕ × ℕ) :=
  (g.enum.map (fun yr =>
    yr.2.enum.filterMap (fun xb =>
      if xb.2 then some (yr.1, xb.1) else none))).flatten

def compsAux (offs : List (ℤ × ℤ)) (g : List (List Bool)) :
    List (ℕ × ℕ) → List (ℕ × ℕ) → List (List (ℕ × ℕ))
  | [], _ => []
  | p :: ps, seen =>
    if p ∈ seen then compsAux offs g ps seen
    else
      let c := component offs g p
      c :: compsAux offs g ps (seen ++ c)

/-- Connected components of a mask, in label order: labels are assigned
by raster order of each component's first-encountered pixel, matching
`scipy.ndimage.label` / `cv2.connectedComponentsWithStats`. -/
def componentsOf (offs : List (ℤ × ℤ)) (g : List (List Bool)) :
    List (List (ℕ × ℕ)) :=
  compsAux offs g (onCoords g) []

/-- A detected region (`pest_detector._extract_regions` dict):
`center = [center_x, center_y]`, `bbox = [min_x, min_y, max_x, max_y]`. -/
structure Region where
  id : ℕ
  rtype : String
  center : ℕ × ℕ
  areaPixels : ℕ
  bbox : ℕ × ℕ × ℕ × ℕ
deriving DecidableEq, Repr

/-- Region record of one labeled component (`_extract_regions` lines
96–108); `int(mean)` truncation is floor, i.e. natural division. -/
def mkRegion (rtype : String) (idv : ℕ) (c : List (ℕ × ℕ)) : Region :=
  let ys := c.map Prod.fst
  let xs := c.map Prod.snd
  { id := idv
    rtype := rtype
    center := (xs.sum / xs.length, ys.sum / ys.length)
    areaPixels := c.length
    bbox := (listMin 0 xs, listMin 0 ys, listMax 0 xs, listMax 0 ys) }

/-- The selection loop of `_extract_regions` (lines 90–111): walk the
components in label order, skip those below `min_area`, and `break` as
soon as `max_regions` have been collected. -/
def selectComps (minArea maxR : ℕ) :
    List (List (ℕ × ℕ)) → ℕ → List (List (ℕ × ℕ))
  | [], _ => []
  | c :: cs, k =>
    if c.length < minArea then selectComps minArea maxR cs k
    else if maxR ≤ k + 1 then [c]
    else c :: selectComps minArea maxR cs (k + 1)

/-- Region records with sequential ids, as appended inside the loop. -/
def buildRegions (rtype : String) : ℕ → List (List (ℕ × ℕ)) → List Region
  | _, [] => []
  | k, c :: cs => mkRegion rtype k c :: buildRegions rtype (k + 1) cs

instance : DecidableRel (fun a b : Region => b.areaPixels ≤ a.areaPixels) :=
  fun a b => Nat.decLe b.areaPixels a.areaPixels

instance : IsTotal Region (fun a b : Region => b.areaPixels ≤ a.areaPixels) :=
  ⟨fun a b => le_total b.areaPixels a.areaPixels⟩

instance : IsTrans Region (fun a b : Region => b.areaPixels ≤ a.areaPixels) :=
  ⟨fun _ _ _ h1 h2 => le_trans h2 h1⟩

/-- Python's stable `regions.sort(key=..., reverse=True)`. -/
def sortRegionsDesc (l : List Region) : List Region :=
  List.insertionSort (fun a b => b.areaPixels ≤ a.areaPixels) l

/-- The id re-assignment loop (`reg["id"] = idx + 1`). -/
def renumberFrom : ℕ → List Region → List Region
  | _, [] => []
  | k, r :: rs => { r with id := k } :: renumberFrom (k + 1) rs

/-- Embedding of `_extract_regions` (pest_detector.py lines 80–119). -/
def extractRegions (g : List (List Bool)) (rtype : String)
    (minArea maxR : ℕ) : List Region :=
  renumberFrom 1 (sortRegionsDesc
    (buildRegions rtype 1 (selectComps minArea maxR (componentsOf n4 g) 0)))

/-- Region extraction as the specification words it (spec §4.4): keep
every qualifying component, sort by area descending, truncate to
`max_regions`, re-assign ids 1..N. -/
def specExtractRegions (g : List (List Bool)) (rtype : String)
    (minArea maxR : ℕ) : List Region :=
  renumberFrom 1 (List.take maxR (sortRegionsDesc
    (buildRegions rtype 1 ((componentsOf n4 g).filter
      (fun c => decide (minArea ≤ c.length))))))

/-- C3 counterexample: the mask `X.XX` (one row) has a 1-pixel component
followed by a 2-pixel component; with `min_area = 1, max_regions = 1` the
code returns the 1-pixel region because the loop breaks before ever
seeing the larger component, while the claim demands the largest
qualifying region (area 2). -/
theorem extractRegions_not_largest :
    (extractRegions [[true, false, true, true]] "x" 1 1).map
      (fun r => r.areaPixels) = [1] ∧
    (specExtractRegions [[true, false, true, true]] "x" 1 1).map
      (fun r => r.areaPixels) = [2] ∧
    extractRegions [[true, false, true, true]] "x" 1 1 ≠
      specExtractRegions [[true, false, true, true]] "x" 1 1 := by
  refine ⟨by decide, by decide, by decide⟩

theorem selectComps_eq_take_filter (minArea maxR : ℕ) :
    ∀ (l : List (List (ℕ × ℕ))) (k : ℕ), k < maxR →
      selectComps minArea maxR l k =
        (l.filter (fun c => decide (minArea ≤ c.length))).take (maxR - k) := by
  intro l
  induction l with
  | nil => intro k _; simp [selectComps]
  | cons c cs ih =>
    intro k hk
    by_cases hlt : c.length < minArea
    · have hp : (decide (minArea ≤ c.length)) = false := by
        simp [Nat.not_le.mpr hlt]
      rw [show selectComps minArea maxR (c :: cs) k =
        selectComps minArea maxR cs k from by rw [selectComps, if_pos hlt]]
      rw [List.filter_cons, hp]
      exact ih k hk
    · have hp : (decide (minArea ≤ c.length)) = true := by
        simp [Nat.not_lt.mp hlt]
      have hfc : List.filter (fun c => decide (minArea ≤ c.length)) (c :: cs)
          = c :: List.filter (fun c => decide (minArea ≤ c.length)) cs := by
        rw [List.filter_cons, hp]
        simp
      rw [hfc]
      have htake : (c :: List.filter (fun c => decide (minArea ≤ c.length)) cs).take (maxR - k)
          = c :: (List.filter (fun c => decide (minArea ≤ c.length)) cs).take (maxR - k - 1) := by
        conv_lhs => rw [show maxR - k = (maxR - k - 1) + 1 from by omega]
        rw [List.take_succ_cons]
      rw [htake]
      by_cases hlast : maxR ≤ k + 1
      · have : maxR - k - 1 = 0 := by omega
        rw [show selectComps minArea maxR (c :: cs) k = [c] from by
          rw [selectComps, if_neg hlt, if_pos hlast]]
        rw [this, List.take_zero]
      · rw [show selectComps minArea maxR (c :: cs) k =
          c :: selectComps minArea maxR cs (k + 1) from by
          rw [selectComps, if_neg hlt, if_neg hlast]]
        rw [ih (k + 1) (by omega)]
        have : maxR - (k + 1) = maxR - k - 1 := by omega
        rw [this]

theorem renumberFrom_map_area :
    ∀ (k : ℕ) (l : List Region),
      (renumberFrom k l).map (fun r => r.areaPixels) =
        l.map (fun r => r.areaPixels) := by
  intro k l
  induction l generalizing k with
  | nil => rfl
  | cons r rs ih => simp [renumberFrom, ih]

theorem renumberFrom_map_id :
    ∀ (k : ℕ) (l : List Region),
      (renumberFrom k l).map (fun r => r.id) = List.range' k l.length := by
  intro k l
  induction l generalizing k with
  | nil => rfl
  | cons r rs ih => simp [renumberFrom, ih, List.range'_succ]

theorem renumberFrom_length (k : ℕ) (l : List Region) :
    (renumberFrom k l).length = l.length := by
  induction l generalizing k with
  | nil => rfl
  | cons r rs ih => simp [renumberFrom, ih]

theorem buildRegions_length (rtype : String) :
    ∀ (k : ℕ) (l : List (List (ℕ × ℕ))),
      (buildRegions rtype k l).length = l.length := by
  intro k l
  induction l generalizing k with
  | nil => rfl
  | cons c cs ih => simp [buildRegions, ih]

theorem sorted_renumberFrom (k : ℕ) (l : List Region)
    (h : List.Sorted (fun a b : Region => b.areaPixels ≤ a.areaPixels) l) :
    List.Sorted (fun a b : Region => b.areaPixels ≤ a.areaPixels)
      (renumberFrom k l) := by
  have h1 : List.Pairwise (fun a b : ℕ => b ≤ a)
      ((renumberFrom k l).map (fun r => r.areaPixels)) := by
    rw [renumberFrom_map_area]
    exact (List.pairwise_map).mpr h
  exact (List.pairwise_map).mp h1

/-- C3 amended: `_extract_regions` returns the **first** (in label
order) up-to-`max_regions` components of area ≥ `min_area` — not the
largest ones — sorted by area descending with ids re-assigned 1..N, and
never more than `max_regions` of them (for `max_regions ≥ 1`). -/
theorem extractRegions_amended (g : List (List Bool)) (rtype : String)
    (minArea maxR : ℕ) (hR : 1 ≤ maxR) :
    extractRegions g rtype minArea maxR =
      renumberFrom 1 (sortRegionsDesc (buildRegions rtype 1
        (((componentsOf n4 g).filter
          (fun c => decide (minArea ≤ c.length))).take maxR))) ∧
    List.Sorted (fun a b : Region => b.areaPixels ≤ a.areaPixels)
      (extractRegions g rtype minArea maxR) ∧
    (extractRegions g rtype minArea maxR).map (fun r => r.id) =
      List.range' 1 (extractRegions g rtype minArea maxR).length ∧
    (extractRegions g rtype minArea maxR).length ≤ maxR := by
  have hsel : selectComps minArea maxR (componentsOf n4 g) 0 =
      ((componentsOf n4 g).filter
        (fun c => decide (minArea ≤ c.length))).take maxR := by
    rw [selectComps_eq_take_filter minArea maxR _ 0 (by omega), Nat.sub_zero]
  refine ⟨?_, ?_, ?_, ?_⟩
  · unfold extractRegions
    rw [hsel]
  · exact sorted_renumberFrom 1 _ (List.sorted_insertionSort _ _)
  · unfold extractRegions
    rw [renumberFrom_map_id, renumberFrom_length]
  · unfold extractRegions
    rw [renumberFrom_length, hsel]
    unfold sortRegionsDesc
    rw [List.length_insertionSort, buildRegions_length]
    calc (((componentsOf n4 g).filter _).take maxR).length ≤ maxR :=
      List.length_take_le _ _

/-- Witness for C3 amended on the counterexample mask with
`max_regions = 1`. -/
theorem extractRegions_amended_witness :
    extractRegions [[true, false, true, true]] "x" 1 1 =
      renumberFrom 1 (sortRegionsDesc (buildRegions "x" 1
        (((componentsOf n4 [[true, false, true, true]]).filter
          (fun c => decide (1 ≤ c.length))).take 1))) ∧
    (extractRegions [[true, false, true, true]] "x" 1 1).length ≤ 1 :=
  let h := extractRegions_amended [[true, false, true, true]] "x" 1 1
    (by norm_num)
  ⟨h.1, h.2.2.2⟩

/-! ## C10 / C4 — canopy counting (`tree_counter.count_trees_by_segmentation`) -/

/-- Number of on-pixels of a mask. -/
def onCount (g : List (List Bool)) : ℕ := g.flatten.countP (fun b => b)

/-- One detected tree (tree_counter.py lines 119–126, `scale = 1`):
`bbox = (x, y, x+w, y+h)` from the component's extremes, centroid
truncated to integers. -/
structure CanopyTree where
  id : ℕ
  bbox : ℕ × ℕ × ℕ × ℕ
  center : ℕ × ℕ
  areaPixels : ℕ
  boxW : ℕ
  boxH : ℕ
deriving DecidableEq, Repr

def mkTree (idv : ℕ) (c : List (ℕ × ℕ)) : CanopyTree :=
  let ys := c.map Prod.fst
  let xs := c.map Prod.snd
  let x0 := listMin 0 xs
  let y0 := listMin 0 ys
  let w := listMax 0 xs + 1 - x0
  let h := listMax 0 ys + 1 - y0
  { id := idv
    bbox := (x0, y0, x0 + w, y0 + h)
    center := (xs.sum / xs.length, ys.sum / ys.length)
    areaPixels := c.length
    boxW := w
    boxH := h }

/-- The filtering loop of lines 95–127: keep components whose area lies
in `[min_tree_area, max_tree_area]`, assigning sequential ids. -/
def buildTrees (minA maxA : ℕ) : ℕ → List (List (ℕ × ℕ)) → List CanopyTree
  | _, [] => []
  | k, c :: cs =>
    if minA ≤ c.length ∧ c.length ≤ maxA then
      mkTree (k + 1) c :: buildTrees minA maxA (k + 1) cs
    else buildTrees minA maxA k cs

/-- Result record of `count_trees_by_segmentation`. -/
structure TreeCountResult where
  totalTrees : ℕ
  totalTreeAreaPixels : ℕ
  coveragePercentage : ℚ
  avgTreeArea : ℚ
  minTreeArea : ℕ
  maxTreeArea : ℕ
  trees : List CanopyTree
  imageWidth : ℕ
  imageHeight : ℕ
deriving DecidableEq, Repr

/-- Embedding of the aggregation part of `count_trees_by_segmentation`
(tree_counter.py lines 92–164), taking the labeled components as input;
`scale = 1` (buffer not downscaled). The scalar statistics are computed
from all filtered trees, the detailed list is `trees[:100]`. -/
def countTreesAggregate (comps : List (List (ℕ × ℕ))) (minA maxA : ℕ)
    (imgW imgH : ℕ) : TreeCountResult :=
  let trees : List CanopyTree := buildTrees minA maxA 0 comps
  let areas : List ℕ := trees.map (fun t => t.areaPixels)
  let totalArea : ℕ := areas.sum
  let avgArea : ℚ := if trees.length = 0 then 0
    else (totalArea : ℚ) / (trees.length : ℚ)
  let minFound : ℕ := if trees.length = 0 then 0 else listMin 0 areas
  let maxFound : ℕ := if trees.length = 0 then 0 else listMax 0 areas
  let totalPixels : ℕ := imgW * imgH
  let coverage : ℚ := if 0 < totalPixels then
    (totalArea : ℚ) / (totalPixels : ℚ) * 100 else 0
  { totalTrees := trees.length
    totalTreeAreaPixels := totalArea
    coveragePercentage := round2 coverage
    avgTreeArea := round1 avgArea
    minTreeArea := minFound
    maxTreeArea := maxFound
    trees := trees.take 100
    imageWidth := imgW
    imageHeight := imgH }

/-- The full CanopyCounter head from the vegetation mask onward:
morphology (erode ×2, dilate ×1), 8-connectivity labeling, aggregation. -/
def countTreesFromMask (mask : List (List Bool)) (minA maxA : ℕ) :
    TreeCountResult :=
  countTreesAggregate (componentsOf n8 (canopyMorph mask)) minA maxA
    (gridWidth mask) mask.length

theorem buildTrees_map_area (minA maxA : ℕ) :
    ∀ (k : ℕ) (comps : List (List (ℕ × ℕ))),
      (buildTrees minA maxA k comps).map (fun t => t.areaPixels) =
        (comps.filter (fun c => decide (minA ≤ c.length ∧ c.length ≤ maxA))).map
          List.length := by
  intro k comps
  induction comps generalizing k with
  | nil => rfl
  | cons c cs ih =>
    by_cases hc : minA ≤ c.length ∧ c.length ≤ maxA
    · rw [show buildTrees minA maxA k (c :: cs) =
        mkTree (k + 1) c :: buildTrees minA maxA (k + 1) cs from by
        rw [buildTrees, if_pos hc]]
      have hfc : (c :: cs).filter
          (fun c => decide (minA ≤ c.length ∧ c.length ≤ maxA)) =
          c :: cs.filter (fun c => decide (minA ≤ c.length ∧ c.length ≤ maxA)) := by
        rw [List.filter_cons, if_pos (by simpa using hc)]
      rw [hfc, List.map_cons, List.map_cons, ih]
      rfl
    · rw [show buildTrees minA maxA k (c :: cs) =
        buildTrees minA maxA k cs from by rw [buildTrees, if_neg hc]]
      have hfc : (c :: cs).filter
          (fun c => decide (minA ≤ c.length ∧ c.length ≤ maxA)) =
          cs.filter (fun c => decide (minA ≤ c.length ∧ c.length ≤ maxA)) := by
        rw [List.filter_cons, if_neg (by simpa using hc)]
      rw [hfc, ih]

theorem buildTrees_length (minA maxA : ℕ) (k : ℕ)
    (comps : List (List (ℕ × ℕ))) :
    (buildTrees minA maxA k comps).length =
      (comps.filter (fun c => decide (minA ≤ c.length ∧ c.length ≤ maxA))).length := by
  have h := buildTrees_map_area minA maxA k comps
  have h1 := congrArg List.length h
  simpa using h1

/-- C10: the scalar metrics of a `CanopyCountResult` — `total_trees`,
`total_tree_area_pixels`, `coverage_percentage`, and the average/min/max
tree areas — are computed over all area-filtered components while the
returned tree list is truncated to 100 entries; with more than 100
qualifying components, `total_trees` exceeds the length of the returned
list, whose omitted regions still count toward every scalar metric. -/
theorem treeCount_metrics_over_all_regions
    (comps : List (List (ℕ × ℕ))) (minA maxA imgW imgH : ℕ) :
    (countTreesAggregate comps minA maxA imgW imgH).totalTrees =
      (comps.filter (fun c => decide (minA ≤ c.length ∧ c.length ≤ maxA))).length ∧
    (countTreesAggregate comps minA maxA imgW imgH).totalTreeAreaPixels =
      ((comps.filter (fun c => decide (minA ≤ c.length ∧ c.length ≤ maxA))).map
        List.length).sum ∧
    (countTreesAggregate comps minA maxA imgW imgH).trees =
      (buildTrees minA maxA 0 comps).take 100 ∧
    (countTreesAggregate comps minA maxA imgW imgH).coveragePercentage =
      round2 (if 0 < imgW * imgH then
        ((((comps.filter (fun c => decide (minA ≤ c.length ∧ c.length ≤ maxA))).map
          List.length).sum : ℚ) / ((imgW * imgH : ℕ) : ℚ)) * 100 else 0) ∧
    (countTreesAggregate comps minA maxA imgW imgH).avgTreeArea =
      round1 (if (comps.filter
          (fun c => decide (minA ≤ c.length ∧ c.length ≤ maxA))).length = 0 then 0
        else ((((comps.filter
            (fun c => decide (minA ≤ c.length ∧ c.length ≤ maxA))).map
          List.length).sum : ℕ) : ℚ) /
          (((comps.filter
            (fun c => decide (minA ≤ c.length ∧ c.length ≤ maxA))).length : ℕ) : ℚ)) ∧
    (countTreesAggregate comps minA maxA imgW imgH).minTreeArea =
      (if (comps.filter
          (fun c => decide (minA ≤ c.length ∧ c.length ≤ maxA))).length = 0 then 0
        else listMin 0 ((comps.filter
          (fun c => decide (minA ≤ c.length ∧ c.length ≤ maxA))).map List.length)) ∧
    (countTreesAggregate comps minA maxA imgW imgH).maxTreeArea =
      (if (comps.filter
          (fun c => decide (minA ≤ c.length ∧ c.length ≤ maxA))).length = 0 then 0
        else listMax 0 ((comps.filter
          (fun c => decide (minA ≤ c.length ∧ c.length ≤ maxA))).map List.length)) ∧
    (100 <
        (comps.filter (fun c => decide (minA ≤ c.length ∧ c.length ≤ maxA))).length →
      (countTreesAggregate comps minA maxA imgW imgH).trees.length <
        (countTreesAggregate comps minA maxA imgW imgH).totalTrees) ∧
    (∀ mask : List (List Bool),
      countTreesFromMask mask minA maxA =
        countTreesAggregate (componentsOf n8 (canopyMorph mask)) minA maxA
          (gridWidth mask) mask.length) := by
  have harea : (buildTrees minA maxA 0 comps).map (fun t => t.areaPixels) =
      (comps.filter (fun c => decide (minA ≤ c.length ∧ c.length ≤ maxA))).map
        List.length := buildTrees_map_area minA maxA 0 comps
  have hlen : (buildTrees minA maxA 0 comps).length =
      (comps.filter (fun c => decide (minA ≤ c.length ∧ c.length ≤ maxA))).length :=
    buildTrees_length minA maxA 0 comps
  refine ⟨hlen, ?_, rfl, ?_, ?_, ?_, ?_, ?_, fun _ => rfl⟩
  · have he : (countTreesAggregate comps minA maxA imgW imgH).totalTreeAreaPixels =
      ((buildTrees minA maxA 0 comps).map (fun t => t.areaPixels)).sum := rfl
    rw [he, harea]
  · have he : (countTreesAggregate comps minA maxA imgW imgH).coveragePercentage =
      round2 (if 0 < imgW * imgH then
        (((((buildTrees minA maxA 0 comps).map (fun t => t.areaPixels)).sum : ℕ) : ℚ) /
          ((imgW * imgH : ℕ) : ℚ)) * 100 else 0) := rfl
    rw [he, harea]
  · have he : (countTreesAggregate comps minA maxA imgW imgH).avgTreeArea =
      round1 (if (buildTrees minA maxA 0 comps).length = 0 then 0
        else (((((buildTrees minA maxA 0 comps).map
            (fun t => t.areaPixels)).sum : ℕ) : ℚ) /
          (((buildTrees minA maxA 0 comps).length : ℕ) : ℚ))) := rfl
    rw [he, harea, hlen]
  · have he : (countTreesAggregate comps minA maxA imgW imgH).minTreeArea =
      (if (buildTrees minA maxA 0 comps).length = 0 then 0
        else listMin 0 ((buildTrees minA maxA 0 comps).map
          (fun t => t.areaPixels))) := rfl
    rw [he, harea, hlen]
  · have he : (countTreesAggregate comps minA maxA imgW imgH).maxTreeArea =
      (if (buildTrees minA maxA 0 comps).length = 0 then 0
        else listMax 0 ((buildTrees minA maxA 0 comps).map
          (fun t => t.areaPixels))) := rfl
    rw [he, harea, hlen]
  · intro h100
    show ((buildTrees minA maxA 0 comps).take 100).length <
      (buildTrees minA maxA 0 comps).length
    rw [List.length_take, hlen]
    omega

set_option maxRecDepth 10000 in
/-- Witness for C10 with 101 qualifying single-pixel components. -/
theorem treeCount_metrics_over_all_regions_witness :
    (countTreesAggregate (List.replicate 101 [(0, 0)]) 1 1 1 1).totalTrees =
      ((List.replicate 101 ([(0, 0)] : List (ℕ × ℕ))).filter
        (fun c => decide (1 ≤ c.length ∧ c.length ≤ 1))).length ∧
    (countTreesAggregate (List.replicate 101 [(0, 0)]) 1 1 1 1).minTreeArea =
      (if ((List.replicate 101 ([(0, 0)] : List (ℕ × ℕ))).filter
          (fun c => decide (1 ≤ c.length ∧ c.length ≤ 1))).length = 0 then 0
        else listMin 0 (((List.replicate 101 ([(0, 0)] : List (ℕ × ℕ))).filter
          (fun c => decide (1 ≤ c.length ∧ c.length ≤ 1))).map List.length)) ∧
    (countTreesAggregate (List.replicate 101 [(0, 0)]) 1 1 1 1).trees.length <
      (countTreesAggregate (List.replicate 101 [(0, 0)]) 1 1 1 1).totalTrees :=
  let h := treeCount_metrics_over_all_regions
    (List.replicate 101 [(0, 0)]) 1 1 1 1
  ⟨h.1, h.2.2.2.2.2.1, h.2.2.2.2.2.2.2.1 (by decide)⟩

/-- The 9×9 all-on mask: only 81 vegetation pixels. -/
def mask9 : List (List Bool) := gridOfFn 9 9 (fun _ _ => true)

set_option maxRecDepth 40000 in
/-- C4 counterexample: the CanopyCounter head does **not** short-circuit
on insufficient vegetation — on a mask with 81 < 100 on-pixels it still
runs morphology and extraction and reports one tree. -/
theorem treeCounter_no_short_circuit :
    onCount mask9 = 81 ∧ 81 < 100 ∧
    (countTreesFromMask mask9 50 15000).totalTrees = 1 := by
  refine ⟨by decide, by decide, by decide⟩

/-! ## C1 / C2 / C7 / C4 — symptom classification (`pest_detector.py`) -/

/-- One analyzed pixel of the SymptomClassifier: the OpenCV HSV channels
(`H` in half-degrees 0–179, `S`, `V` in 0–255), the vegetation-mask bit,
and the texture z-score of `_detect_texture_anomalies` (whose local-mean
computation is carried as a per-pixel input). -/
structure SPix where
  h : ℕ
  s : ℕ
  v : ℕ
  veg : Bool
  z : ℚ
deriving DecidableEq, Repr

/-- `_detect_chlorosis` (pest_detector.py lines 31–42):
`(h >= 20) & (h <= 40) & (s > 50) & vegetation_mask`. -/
def chlorB (p : SPix) : Bool :=
  decide (20 ≤ p.h) && decide (p.h ≤ 40) && decide (50 < p.s) && p.veg

/-- `_detect_necrosis` (lines 45–57):
`(h >= 10) & (h <= 25) & (s > 30) & (v < 150) & vegetation_mask`. -/
def necrB (p : SPix) : Bool :=
  decide (10 ≤ p.h) && decide (p.h ≤ 25) && decide (30 < p.s) &&
    decide (p.v < 150) && p.veg

/-- `_detect_texture_anomalies` final line: `(z_score > threshold) &
vegetation_mask`. -/
def anomB (th : ℚ) (p : SPix) : Bool := decide (th < p.z) && p.veg

/-- Overlap removal (lines 242–244): anomaly loses to both others. -/
def anomF (th : ℚ) (p : SPix) : Bool := anomB th p && !chlorB p && !necrB p

/-- Overlap removal: chlorosis loses to necrosis. -/
def chlorF (p : SPix) : Bool := chlorB p && !necrB p

/-- `_classify_severity` (lines 122–131). -/
def classifySeverity (ir : ℚ) : String :=
  if ir < 5 then "saudavel"
  else if ir < 15 then "leve"
  else if ir < 30 then "moderado"
  else "severo"

/-- Per-pixel mask of a pixel predicate over the image grid. -/
def maskOf (f : SPix → Bool) (img : List (List SPix)) : List (List Bool) :=
  img.map (fun row => row.map f)

/-- `total_vegetation_pixels = int(vegetation_mask.sum())`. -/
def countVeg (img : List (List SPix)) : ℕ :=
  img.flatten.countP (fun p => p.veg)

/-- Result record of `detect_pest_disease` (numeric and region fields;
the free-text recommendation strings are outside the model). -/
structure SymptomResult where
  totalVegetationPixels : ℕ
  healthyPercentage : ℚ
  chlorosisPercentage : ℚ
  necrosisPercentage : ℚ
  anomalyPercentage : ℚ
  overallSeverity : String
  infectionRate : ℚ
  affectedRegions : List Region
  anomalyThresholdParam : ℚ
deriving DecidableEq, Repr

/-- The insufficient-vegetation result (lines 216–232). -/
def zeroSymptomResult (img : List (List SPix)) (th : ℚ) : SymptomResult :=
  { totalVegetationPixels := countVeg img
    healthyPercentage := 0
    chlorosisPercentage := 0
    necrosisPercentage := 0
    anomalyPercentage := 0
    overallSeverity := "saudavel"
    infectionRate := 0
    affectedRegions := []
    anomalyThresholdParam := th }

/-- Embedding of `detect_pest_disease` (pest_detector.py lines 182–291)
from the vegetation mask / HSV / z-score stage onward. -/
def detectPestDisease (img : List (List SPix)) (anomalyThreshold : ℚ)
    (minRegionArea : ℕ) : SymptomResult :=
  let T := countVeg img
  if T < 100 then zeroSymptomResult img anomalyThreshold
  else
    let c := img.flatten.countP chlorF
    let n := img.flatten.countP necrB
    let a := img.flatten.countP (anomF anomalyThreshold)
    let cPct := round2 ((c : ℚ) / (T : ℚ) * 100)
    let nPct := round2 ((n : ℚ) / (T : ℚ) * 100)
    let aPct := round2 ((a : ℚ) / (T : ℚ) * 100)
    let infectionRate := round2 (cPct + nPct + aPct)
    let healthyPct := round2 (max (100 - infectionRate) 0)
    let cRegions := extractRegions (maskOf chlorF img) "chlorosis"
      minRegionArea 7
    let nRegions := extractRegions (maskOf necrB img) "necrosis"
      minRegionArea 7
    let aRegions := extractRegions (maskOf (anomF anomalyThreshold) img)
      "anomaly" minRegionArea 7
    let allRegions := renumberFrom 1
      ((sortRegionsDesc (cRegions ++ nRegions ++ aRegions)).take 20)
    { totalVegetationPixels := T
      healthyPercentage := healthyPct
      chlorosisPercentage := cPct
      necrosisPercentage := nPct
      anomalyPercentage := aPct
      overallSeverity := classifySeverity infectionRate
      infectionRate := infectionRate
      affectedRegions := allRegions
      anomalyThresholdParam := anomalyThreshold }

/-- Per-pixel disjointness facts of the three final symptom flags, as a
decidable statement over the underlying raw flags. -/
theorem symptom_flags (cb nb ab vg : Bool)
    (hcb : cb = true → vg = true) (hnb : nb = true → vg = true)
    (hab : ab = true → vg = true) :
    ((cb && !nb) = true → vg = true) ∧ (nb = true → vg = true) ∧
    ((ab && !cb && !nb) = true → vg = true) ∧
    ¬((cb && !nb) = true ∧ nb = true) ∧
    ¬((cb && !nb) = true ∧ (ab && !cb && !nb) = true) ∧
    ¬(nb = true ∧ (ab && !cb && !nb) = true) ∧
    (((if (cb && !nb) = true then 1 else 0) + (if nb = true then 1 else 0) +
      (if (ab && !cb && !nb) = true then 1 else 0) : ℕ) ≤
      (if vg = true then 1 else 0)) := by
  revert hcb hnb hab
  revert cb nb ab vg
  decide

theorem chlorB_veg {p : SPix} (h : chlorB p = true) : p.veg = true := by
  unfold chlorB at h
  simp only [Bool.and_eq_true] at h
  exact h.2

theorem necrB_veg {p : SPix} (h : necrB p = true) : p.veg = true := by
  unfold necrB at h
  simp only [Bool.and_eq_true] at h
  exact h.2

theorem anomB_veg {th : ℚ} {p : SPix} (h : anomB th p = true) :
    p.veg = true := by
  unfold anomB at h
  simp only [Bool.and_eq_true] at h
  exact h.2

/-- The three final symptom counts never exceed the vegetation count. -/
theorem count_three_le (l : List SPix) (th : ℚ) :
    l.countP chlorF + l.countP necrB + l.countP (anomF th) ≤
      l.countP (fun p => p.veg) := by
  induction l with
  | nil => simp
  | cons p t ih =>
    rw [List.countP_cons, List.countP_cons, List.countP_cons,
      List.countP_cons]
    have key := (symptom_flags (chlorB p) (necrB p) (anomB th p) p.veg
      chlorB_veg necrB_veg anomB_veg).2.2.2.2.2.2
    have hc : chlorF p = (chlorB p && !necrB p) := rfl
    have ha : anomF th p = (anomB th p && !chlorB p && !necrB p) := rfl
    rw [hc, ha]
    omega

/-- C1: the three final symptom masks are pairwise disjoint subsets of
the vegetation mask; for ≥ 100 vegetation pixels the four reported
percentages sum to 100 within rounding (exactly 100 unless the three
rounded percentages together exceed 100, and never beyond 100 + 3/200);
for < 100 vegetation pixels the defined zero result is returned. -/
theorem symptom_percentage_sum (img : List (List SPix)) (th : ℚ)
    (minArea : ℕ) :
    (∀ p ∈ img.flatten,
      (chlorF p = true → p.veg = true) ∧ (necrB p = true → p.veg = true) ∧
      (anomF th p = true → p.veg = true) ∧
      ¬(chlorF p = true ∧ necrB p = true) ∧
      ¬(chlorF p = true ∧ anomF th p = true) ∧
      ¬(necrB p = true ∧ anomF th p = true)) ∧
    (100 ≤ countVeg img →
      100 ≤ (detectPestDisease img th minArea).healthyPercentage +
        (detectPestDisease img th minArea).chlorosisPercentage +
        (detectPestDisease img th minArea).necrosisPercentage +
        (detectPestDisease img th minArea).anomalyPercentage ∧
      (detectPestDisease img th minArea).healthyPercentage +
        (detectPestDisease img th minArea).chlorosisPercentage +
        (detectPestDisease img th minArea).necrosisPercentage +
        (detectPestDisease img th minArea).anomalyPercentage ≤
          100 + 3 / 200) ∧
    (countVeg img < 100 →
      detectPestDisease img th minArea = zeroSymptomResult img th) := by
  refine ⟨?_, ?_, ?_⟩
  · intro p _
    have key := symptom_flags (chlorB p) (necrB p) (anomB th p) p.veg
      chlorB_veg necrB_veg anomB_veg
    have hc : chlorF p = (chlorB p && !necrB p) := rfl
    have ha : anomF th p = (anomB th p && !chlorB p && !necrB p) := rfl
    rw [hc, ha]
    exact ⟨key.1, key.2.1, key.2.2.1, key.2.2.2.1, key.2.2.2.2.1,
      key.2.2.2.2.2.1⟩
  · intro hT
    have hne : ¬ (countVeg img < 100) := by omega
    set T' := countVeg img with hT'
    set c := img.flatten.countP chlorF with hcdef
    set n := img.flatten.countP necrB with hndef
    set a := img.flatten.countP (anomF th) with hadef
    set cP := round2 ((c : ℚ) / (T' : ℚ) * 100) with hcP
    set nP := round2 ((n : ℚ) / (T' : ℚ) * 100) with hnP
    set aP := round2 ((a : ℚ) / (T' : ℚ) * 100) with haP
    set I := round2 (cP + nP + aP) with hII
    have hH : (detectPestDisease img th minArea).healthyPercentage =
        round2 (max (100 - I) 0) := by
      simp only [detectPestDisease]
      rw [if_neg hne]
    have hC : (detectPestDisease img th minArea).chlorosisPercentage = cP := by
      simp only [detectPestDisease]
      rw [if_neg hne]
    have hN : (detectPestDisease img th minArea).necrosisPercentage = nP := by
      simp only [detectPestDisease]
      rw [if_neg hne]
    have hA : (detectPestDisease img th minArea).anomalyPercentage = aP := by
      simp only [detectPestDisease]
      rw [if_neg hne]
    rw [hH, hC, hN, hA]
    have hsum3 : c + n + a ≤ T' := count_three_le img.flatten th
    have hTpos : (0 : ℚ) < (T' : ℚ) := by
      have : 0 < T' := by omega
      exact_mod_cast this
    have hc0 : (0 : ℚ) ≤ (c : ℚ) / (T' : ℚ) * 100 := by positivity
    have hn0 : (0 : ℚ) ≤ (n : ℚ) / (T' : ℚ) * 100 := by positivity
    have ha0 : (0 : ℚ) ≤ (a : ℚ) / (T' : ℚ) * 100 := by positivity
    have hub : (c : ℚ) / (T' : ℚ) * 100 + (n : ℚ) / (T' : ℚ) * 100 +
        (a : ℚ) / (T' : ℚ) * 100 ≤ 100 := by
      have hcast : (c : ℚ) + (n : ℚ) + (a : ℚ) ≤ (T' : ℚ) := by
        exact_mod_cast hsum3
      have he : (c : ℚ) / (T' : ℚ) * 100 + (n : ℚ) / (T' : ℚ) * 100 +
          (a : ℚ) / (T' : ℚ) * 100 =
          ((c : ℚ) + (n : ℚ) + (a : ℚ)) / (T' : ℚ) * 100 := by ring
      rw [he]
      have h1 : ((c : ℚ) + (n : ℚ) + (a : ℚ)) / (T' : ℚ) ≤ 1 := by
        rw [div_le_one hTpos]
        exact hcast
      linarith [mul_le_mul_of_nonneg_right h1
        (show (0 : ℚ) ≤ 100 by norm_num)]
    have hcP0 : 0 ≤ cP := round2_nonneg hc0
    have hnP0 : 0 ≤ nP := round2_nonneg hn0
    have haP0 : 0 ≤ aP := round2_nonneg ha0
    have hcPle : cP ≤ (c : ℚ) / (T' : ℚ) * 100 + 1 / 200 := round2_le _
    have hnPle : nP ≤ (n : ℚ) / (T' : ℚ) * 100 + 1 / 200 := round2_le _
    have haPle : aP ≤ (a : ℚ) / (T' : ℚ) * 100 + 1 / 200 := round2_le _
    -- the three rounded percentages are integer multiples of 1/100
    have hcZ : cP = ((round (((c : ℚ) / (T' : ℚ) * 100) * 100) : ℤ) : ℚ) / 100 := rfl
    have hnZ : nP = ((round (((n : ℚ) / (T' : ℚ) * 100) * 100) : ℤ) : ℚ) / 100 := rfl
    have haZ : aP = ((round (((a : ℚ) / (T' : ℚ) * 100) * 100) : ℤ) : ℚ) / 100 := rfl
    have hIsum : cP + nP + aP =
        (((round (((c : ℚ) / (T' : ℚ) * 100) * 100) +
           round (((n : ℚ) / (T' : ℚ) * 100) * 100) +
           round (((a : ℚ) / (T' : ℚ) * 100) * 100)) : ℤ) : ℚ) / 100 := by
      rw [hcZ, hnZ, haZ]
      push_cast
      ring
    have hI_eq : I = cP + nP + aP := by
      rw [hII, hIsum, round2_intDiv100, ← hIsum]
    have hIub : I ≤ 100 + 3 / 200 := by
      rw [hI_eq]
      linarith
    by_cases hI100 : I ≤ 100
    · have hmax : max ((100 : ℚ) - I) 0 = 100 - I :=
        max_eq_left (by linarith)
      have h100I : (100 : ℚ) - I =
          (((10000 - (round (((c : ℚ) / (T' : ℚ) * 100) * 100) +
             round (((n : ℚ) / (T' : ℚ) * 100) * 100) +
             round (((a : ℚ) / (T' : ℚ) * 100) * 100))) : ℤ) : ℚ) / 100 := by
        rw [hI_eq, hIsum]
        push_cast
        ring
      have hhealthy : round2 (max ((100 : ℚ) - I) 0) = 100 - I := by
        rw [hmax, h100I, round2_intDiv100, ← h100I]
      rw [hhealthy]
      constructor
      · rw [hI_eq] at *
        linarith
      · rw [hI_eq] at *
        linarith
    · have hmax : max ((100 : ℚ) - I) 0 = 0 :=
        max_eq_right (by linarith)
      have hhealthy : round2 (max ((100 : ℚ) - I) 0) = 0 := by
        rw [hmax, round2_zero]
      rw [hhealthy]
      constructor
      · rw [hI_eq] at *
        linarith
      · rw [hI_eq] at *
        linarith
  · intro h
    simp only [detectPestDisease]
    rw [if_pos h]

/-- A 1×100 all-vegetation healthy grid (hue 60 half-degrees). -/
def gridA : List (List SPix) := [List.replicate 100 ⟨60, 200, 200, true, 0⟩]

/-- A single non-vegetation pixel. -/
def gridB : List (List SPix) := [[⟨60, 200, 200, false, 0⟩]]

/-- Witness for C1 on concrete grids with 100 and 0 vegetation pixels. -/
theorem symptom_percentage_sum_witness :
    (¬(chlorF ⟨60, 200, 200, true, 0⟩ = true ∧
        necrB ⟨60, 200, 200, true, 0⟩ = true)) ∧
    (100 ≤ (detectPestDisease gridA 2 100).healthyPercentage +
      (detectPestDisease gridA 2 100).chlorosisPercentage +
      (detectPestDisease gridA 2 100).necrosisPercentage +
      (detectPestDisease gridA 2 100).anomalyPercentage) ∧
    (detectPestDisease gridB 2 100 = zeroSymptomResult gridB 2) := by
  have hmem : (⟨60, 200, 200, true, 0⟩ : SPix) ∈ gridA.flatten := by
    have : gridA.flatten = List.replicate 100 ⟨60, 200, 200, true, 0⟩ := by
      simp [gridA]
    rw [this]
    exact List.mem_replicate.mpr ⟨by norm_num, rfl⟩
  have hTA : 100 ≤ countVeg gridA := by
    have : countVeg gridA = 100 := by
      simp [countVeg, gridA]
    omega
  have hTB : countVeg gridB < 100 := by
    have : countVeg gridB = 0 := by
      simp [countVeg, gridB]
    omega
  exact ⟨((symptom_percentage_sum gridA 2 100).1 _ hmem).2.2.2.1,
    ((symptom_percentage_sum gridA 2 100).2.1 hTA).1,
    (symptom_percentage_sum gridB 2 100).2.2 hTB⟩

/-! ### C2 — hue scale of the symptom masks -/

/-- Hue in degrees (0–360) of an 8-bit RGB pixel, per the documented
OpenCV `RGB2HSV` formula (`V = max`, `H = 60·(g−b)/(V−min)` when `V = r`,
etc., +360 when negative). -/
def hueDegOfRgb (p : Rgb) : ℚ :=
  let mx := max p.r (max p.g p.b)
  let mn := min p.r (min p.g p.b)
  let d := mx - mn
  if d = 0 then 0
  else
    let base : ℚ :=
      if mx = p.r then 60 * (((p.g : ℚ) - (p.b : ℚ)) / (d : ℚ))
      else if mx = p.g then 120 + 60 * (((p.b : ℚ) - (p.r : ℚ)) / (d : ℚ))
      else 240 + 60 * (((p.r : ℚ) - (p.g : ℚ)) / (d : ℚ))
    if base < 0 then base + 360 else base

/-- OpenCV 8-bit saturation `255·(V−min)/V` (0 when `V = 0`). -/
def satOfRgb (p : Rgb) : ℕ :=
  let mx := max p.r (max p.g p.b)
  let mn := min p.r (min p.g p.b)
  if mx = 0 then 0
  else (round ((((mx - mn : ℕ) : ℚ) * 255) / (mx : ℚ))).toNat

/-- OpenCV value channel `V = max(r, g, b)`. -/
def valOfRgb (p : Rgb) : ℕ := max p.r (max p.g p.b)

/-- The `SPix` fed to the symptom masks for an RGB pixel: OpenCV stores
`H` in half-degrees (0–179), so `h = round(hue°/2)`. -/
def hsvPixOfRgb (p : Rgb) (vegf : Bool) (zs : ℚ) : SPix :=
  { h := (round (hueDegOfRgb p / 2)).toNat
    s := satOfRgb p
    v := valOfRgb p
    veg := vegf
    z := zs }

/-- C2 counterexample: the vegetation pixel RGB (255, 128, 0) has hue
exactly 512/17 ≈ 30.1° ∈ [20°, 40°] on the 0–360° scale and saturation
255 > 50, yet the chlorosis mask does not select it, because the code's
bounds 20–40 apply to OpenCV's half-degree hue channel (h = 15 here),
i.e. to 40°–80°. -/
theorem chlorosis_hue_scale_counterexample :
    (20 ≤ hueDegOfRgb ⟨255, 128, 0⟩ ∧ hueDegOfRgb ⟨255, 128, 0⟩ ≤ 40) ∧
    50 < satOfRgb ⟨255, 128, 0⟩ ∧
    (hsvPixOfRgb ⟨255, 128, 0⟩ true 0).veg = true ∧
    chlorB (hsvPixOfRgb ⟨255, 128, 0⟩ true 0) = false := by
  have hhue : hueDegOfRgb ⟨255, 128, 0⟩ = 512 / 17 := by
    unfold hueDegOfRgb
    norm_num
  have hsat : satOfRgb ⟨255, 128, 0⟩ = 255 := by
    unfold satOfRgb
    norm_num
    decide
  have hh : (hsvPixOfRgb ⟨255, 128, 0⟩ true 0).h = 15 := by
    show (round (hueDegOfRgb ⟨255, 128, 0⟩ / 2)).toNat = 15
    rw [hhue]
    rw [show (512 : ℚ) / 17 / 2 = 256 / 17 by norm_num]
    rw [show round ((256 : ℚ) / 17) = 15 by norm_num [round_eq]]
    decide
  refine ⟨⟨by rw [hhue]; norm_num, by rw [hhue]; norm_num⟩,
    by rw [hsat]; norm_num, rfl, ?_⟩
  unfold chlorB
  rw [hh]
  norm_num

/-- C2 amended: on OpenCV's half-degree hue channel, the chlorosis mask
selects exactly the vegetation pixels with stored hue 2·h ∈ [40°, 80°]
and saturation > 50, and the necrosis mask exactly those with
2·h ∈ [20°, 50°], saturation > 30 and value < 150. -/
theorem symptom_hue_ranges_amended (p : SPix) :
    (chlorB p = true ↔
      (p.veg = true ∧ 40 ≤ 2 * p.h ∧ 2 * p.h ≤ 80 ∧ 50 < p.s)) ∧
    (necrB p = true ↔
      (p.veg = true ∧ 20 ≤ 2 * p.h ∧ 2 * p.h ≤ 50 ∧ 30 < p.s ∧
        p.v < 150)) := by
  constructor
  · simp only [chlorB, Bool.and_eq_true, decide_eq_true_eq]
    constructor
    · rintro ⟨⟨⟨h1, h2⟩, h3⟩, h4⟩
      exact ⟨h4, by omega, by omega, h3⟩
    · rintro ⟨h4, h1, h2, h3⟩
      exact ⟨⟨⟨by omega, by omega⟩, h3⟩, h4⟩
  · simp only [necrB, Bool.and_eq_true, decide_eq_true_eq]
    constructor
    · rintro ⟨⟨⟨⟨h1, h2⟩, h3⟩, h5⟩, h4⟩
      exact ⟨h4, by omega, by omega, h3, h5⟩
    · rintro ⟨h4, h1, h2, h3, h5⟩
      exact ⟨⟨⟨⟨by omega, by omega⟩, h3⟩, h5⟩, h4⟩

/-! ### C7 — no caller-parameter validation -/

/-- The documented valid parameter ranges of spec §6:
`anomaly_threshold ∈ [0.5, 5.0]`, `min_region_area ∈ [10, 10000]`. -/
def specParamsValid (th : ℚ) (ma : ℕ) : Prop :=
  (1 / 2 ≤ th ∧ th ≤ 5) ∧ (10 ≤ ma ∧ ma ≤ 10000)

/-- A 1×100 vegetation grid whose last pixel has texture z-score 7. -/
def gridC : List (List SPix) :=
  [List.replicate 99 ⟨60, 200, 200, true, 0⟩ ++ [⟨60, 200, 200, true, 7⟩]]

set_option maxRecDepth 10000 in
/-- C7 counterexample: with the out-of-range `anomaly_threshold = 10`
the entry point neither fails nor clamps — it computes a fully-populated
result using 10 itself (z-score 7 not flagged, threshold echoed), while
clamping into the documented range [0.5, 5] would flag that pixel. -/
theorem pest_params_no_validation_counterexample :
    ¬ specParamsValid 10 100 ∧
    (detectPestDisease gridC 10 100).anomalyPercentage = 0 ∧
    (detectPestDisease gridC 10 100).anomalyThresholdParam = 10 ∧
    (detectPestDisease gridC 5 100).anomalyPercentage = 1 := by
  have hT : countVeg gridC = 100 := by decide
  have hne : ¬ countVeg gridC < 100 := by omega
  have ha10 : gridC.flatten.countP (anomF 10) = 0 := by decide
  have ha5 : gridC.flatten.countP (anomF 5) = 1 := by decide
  refine ⟨?_, ?_, ?_, ?_⟩
  · intro h
    rcases h with ⟨⟨_, h2⟩, _⟩
    norm_num at h2
  · have he : (detectPestDisease gridC 10 100).anomalyPercentage =
        round2 ((gridC.flatten.countP (anomF 10) : ℚ) /
          (countVeg gridC : ℚ) * 100) := by
      simp only [detectPestDisease]
      rw [if_neg hne]
    rw [he, ha10, hT]
    rw [show ((0 : ℕ) : ℚ) / ((100 : ℕ) : ℚ) * 100 = 0 by norm_num,
      round2_zero]
  · simp only [detectPestDisease]
    rw [if_neg hne]
  · have he : (detectPestDisease gridC 5 100).anomalyPercentage =
        round2 ((gridC.flatten.countP (anomF 5) : ℚ) /
          (countVeg gridC : ℚ) * 100) := by
      simp only [detectPestDisease]
      rw [if_neg hne]
    rw [he, ha5, hT]
    rw [show ((1 : ℕ) : ℚ) / ((100 : ℕ) : ℚ) * 100 = 1 by norm_num]
    unfold round2
    norm_num [round_eq]

/-- C7 amended: the entry point performs no range validation — any
caller-supplied `anomaly_threshold` and `min_region_area`, in range or
not, are used as given: the threshold is compared against the z-scores
unmodified and echoed in the result's parameters. -/
theorem pest_params_no_validation (img : List (List SPix)) (th : ℚ)
    (ma : ℕ) (_hinvalid : ¬ specParamsValid th ma) :
    (detectPestDisease img th ma).anomalyThresholdParam = th ∧
    (∀ p : SPix, anomB th p = (decide (th < p.z) && p.veg)) := by
  refine ⟨?_, fun p => rfl⟩
  by_cases h : countVeg img < 100
  · simp only [detectPestDisease]
    rw [if_pos h]
    rfl
  · simp only [detectPestDisease]
    rw [if_neg h]

/-- Witness for C7 amended at the out-of-range threshold 10. -/
theorem pest_params_no_validation_witness :
    (detectPestDisease gridB 10 100).anomalyThresholdParam = 10 :=
  (pest_params_no_validation gridB 10 100
    (by intro h; rcases h with ⟨⟨_, h2⟩, _⟩; norm_num at h2)).1

/-! ## C4 — biomass estimator (`biomass_estimator.estimate_biomass`) -/

/-- One pixel of the BiomassEstimator's buffer: RGB channels plus the
grayscale value (the `cv2.COLOR_RGB2GRAY` conversion carried as a
per-pixel input). -/
structure BPix where
  r : ℕ
  g : ℕ
  b : ℕ
  gray : ℚ
deriving DecidableEq, Repr

/-- Per-pixel ExG of `_compute_exg_mask` (biomass_estimator.py lines
25–28): channels scaled to [0,1], `(2g − r − b)/(r + g + b + 1e-10)`. -/
def exgOf (p : BPix) : ℚ :=
  let r : ℚ := (p.r : ℚ) / 255
  let g : ℚ := (p.g : ℚ) / 255
  let b : ℚ := (p.b : ℚ) / 255
  (2 * g - r - b) / (r + g + b + 1 / 10000000000)

/-- Row-major list of the image pixels selected by the boolean mask
(numpy boolean indexing `image[...][vegetation_mask]`). -/
def maskedPixels (img : List (List BPix)) (mask : List (List Bool)) :
    List BPix :=
  ((img.zip mask).map (fun rm =>
    (rm.1.zip rm.2).filterMap (fun pb =>
      if pb.2 then some pb.1 else none))).flatten

/-- Canopy patch of `_segment_canopies` (lines 60–77): like a region but
with `bbox = [x, y, x + w, y + h]` and no type key (kind fixed to
"canopy" here). -/
def mkPatch (idv : ℕ) (c : List (ℕ × ℕ)) : Region :=
  let ys := c.map Prod.fst
  let xs := c.map Prod.snd
  let x0 := listMin 0 xs
  let y0 := listMin 0 ys
  let w := listMax 0 xs + 1 - x0
  let hh := listMax 0 ys + 1 - y0
  { id := idv
    rtype := "canopy"
    center := (xs.sum / xs.length, ys.sum / ys.length)
    areaPixels := c.length
    bbox := (x0, y0, x0 + w, y0 + hh) }

def buildPatches : ℕ → List (List (ℕ × ℕ)) → List Region
  | _, [] => []
  | k, c :: cs => mkPatch k c :: buildPatches (k + 1) cs

/-- Embedding of `_segment_canopies` (lines 35–86): biomass morphology,
8-connectivity components, keep areas ≥ `min_canopy_area` (no upper
bound, no break — `total_area` sums every kept component), sort by area
descending, truncate to 20, renumber; `canopy_count` is the truncated
length. Returns (patches, total area, canopy count). -/
def segmentCanopies (mask : List (List Bool)) (minCanopyArea : ℕ) :
    List Region × ℕ × ℕ :=
  let comps := componentsOf n8 (biomassMorph mask)
  let kept := comps.filter (fun c => decide (minCanopyArea ≤ c.length))
  let totalArea := (kept.map List.length).sum
  let patches := renumberFrom 1
    ((sortRegionsDesc (buildPatches 1 kept)).take 20)
  (patches, totalArea, patches.length)

/-- Vigor metrics of `_compute_vigor_metrics` (lines 89–117). -/
structure VigorMetrics where
  meanGreenIntensity : ℚ
  meanExg : ℚ
  textureVariance : ℚ
deriving DecidableEq, Repr

def computeVigorMetrics (img : List (List BPix))
    (mask : List (List Bool)) : VigorMetrics :=
  let sel := maskedPixels img mask
  if sel.length < 10 then ⟨0, 0, 0⟩
  else
    let n : ℚ := (sel.length : ℚ)
    let meanGreen := (sel.map (fun p => (p.g : ℚ))).sum / n
    let meanExg := (sel.map exgOf).sum / n
    let grays := sel.map (fun p => p.gray)
    let mu := grays.sum / n
    let varG := (grays.map (fun x => (x - mu) ^ 2)).sum / n
    ⟨round2 meanGreen, round4 meanExg, round2 varG⟩

/-- `_classify_density` (lines 155–164). -/
def classifyDensity (bi : ℚ) : String :=
  if bi < 25 then "esparsa"
  else if bi < 50 then "moderada"
  else if bi < 75 then "densa"
  else "muito_densa"

/-- `_estimate_biomass_kg_ha` (lines 167–182). -/
def estimateBiomassKgHa (bi : ℚ) : ℚ :=
  round0 (2000 + bi / 100 * (400000 - 2000))

/-- Width of the biomass buffer (length of its first row). -/
def bpixWidth (img : List (List BPix)) : ℕ := (img.getD 0 []).length

/-- Result record of `estimate_biomass` (recommendation strings outside
the model). -/
structure BiomassResult where
  vegetationCoveragePct : ℚ
  canopyCount : ℕ
  totalCanopyAreaPixels : ℕ
  avgCanopyArea : ℚ
  biomassIndex : ℚ
  densityClass : String
  estimatedBiomassKgHa : ℚ
  canopyPatches : List Region
  vigor : VigorMetrics
  minCanopyAreaParam : ℕ
deriving DecidableEq, Repr

/-- The insufficient-vegetation result (lines 265–286): the actual
coverage percentage with every other metric zeroed. -/
def biomassZeroResult (img : List (List BPix)) (mask : List (List Bool))
    (minC : ℕ) : BiomassResult :=
  { vegetationCoveragePct := round2 ((onCount mask : ℚ) /
      ((img.length * bpixWidth img : ℕ) : ℚ) * 100)
    canopyCount := 0
    totalCanopyAreaPixels := 0
    avgCanopyArea := 0
    biomassIndex := 0
    densityClass := "esparsa"
    estimatedBiomassKgHa := 0
    canopyPatches := []
    vigor := ⟨0, 0, 0⟩
    minCanopyAreaParam := minC }

/-- Embedding of `estimate_biomass` (biomass_estimator.py lines 230–329)
from the vegetation-mask stage onward. -/
def estimateBiomass (img : List (List BPix)) (mask : List (List Bool))
    (minC : ℕ) : BiomassResult :=
  let totalPixels := img.length * bpixWidth img
  let T := onCount mask
  let coverage := round2 ((T : ℚ) / (totalPixels : ℚ) * 100)
  if T < 100 then biomassZeroResult img mask minC
  else
    let seg := segmentCanopies mask minC
    let patches := seg.1
    let totalCanopyArea := seg.2.1
    let canopyCount := seg.2.2
    let avg := if 0 < canopyCount then
      round2 ((totalCanopyArea : ℚ) / (canopyCount : ℚ)) else 0
    let vigor := computeVigorMetrics img mask
    let density : ℚ := if 0 < totalPixels then
      (totalCanopyArea : ℚ) / (totalPixels : ℚ) else 0
    let bi := computeBiomassIndex coverage density vigor.meanGreenIntensity
      vigor.textureVariance
    { vegetationCoveragePct := coverage
      canopyCount := canopyCount
      totalCanopyAreaPixels := totalCanopyArea
      avgCanopyArea := avg
      biomassIndex := bi
      densityClass := classifyDensity bi
      estimatedBiomassKgHa := estimateBiomassKgHa bi
      canopyPatches := patches
      vigor := vigor
      minCanopyAreaParam := minC }

/-- C4 amended: of the three analysis heads only the SymptomClassifier
and the BiomassEstimator short-circuit with their defined zero results
when the vegetation mask has fewer than 100 on-pixels; the CanopyCounter
does not (see `treeCounter_no_short_circuit`). -/
theorem insufficient_vegetation_short_circuit (img : List (List SPix))
    (th : ℚ) (ma : ℕ) (bimg : List (List BPix))
    (mask : List (List Bool)) (minC : ℕ) :
    (countVeg img < 100 →
      detectPestDisease img th ma = zeroSymptomResult img th) ∧
    (onCount mask < 100 →
      estimateBiomass bimg mask minC = biomassZeroResult bimg mask minC) := by
  constructor
  · intro h
    simp only [detectPestDisease]
    rw [if_pos h]
  · intro h
    simp only [estimateBiomass]
    rw [if_pos h]

/-- Witness for C4 amended on masks/grids with 0 and 1 on-pixels. -/
theorem insufficient_vegetation_short_circuit_witness :
    detectPestDisease gridB 2 100 = zeroSymptomResult gridB 2 ∧
    estimateBiomass [[⟨0, 0, 0, 0⟩]] [[true]] 50 =
      biomassZeroResult [[⟨0, 0, 0, 0⟩]] [[true]] 50 :=
  ⟨(insufficient_vegetation_short_circuit gridB 2 100 [[⟨0, 0, 0, 0⟩]]
      [[true]] 50).1 (by decide),
    (insufficient_vegetation_short_circuit gridB 2 100 [[⟨0, 0, 0, 0⟩]]
      [[true]] 50).2 (by decide)⟩
